import Mathlib

/-!
Verification development for the `socket_config` Rust crate.

The crate opens or claims sockets from a user-supplied `SocketAddr` plus two
option structures.  This file gives a shallow embedding of the crate's data
model (`src/addr.rs`, `src/options.rs`, `src/errors.rs`), of its `open`
orchestration (`src/open.rs`, with the OS socket table and file system made
explicit as a small state type), and of the platform glue it uses
(`src/sys/other.rs`, the POSIX implementation; the whole development models
the POSIX configuration, where `RawSocket` is the C `int` file-descriptor
type, i.e. a signed 32-bit integer).

External collaborators (the Rust standard library's IP-address printing and
parsing, the OS socket calls) are either transcribed from their upstream
sources (IPv4/IPv6 `Display`) or modelled as explicit state transitions on
the OS state, as noted at each definition.
-/

deriving instance DecidableEq for Except

namespace SocketConfig

/-- Decimal digit character, `0 ↦ '0', …, 9 ↦ '9'` (any larger input also
maps to `'9'`; it is only ever applied to numbers below ten). -/
def decDigit : Nat → Char
  | 0 => '0'
  | 1 => '1'
  | 2 => '2'
  | 3 => '3'
  | 4 => '4'
  | 5 => '5'
  | 6 => '6'
  | 7 => '7'
  | 8 => '8'
  | _ => '9'

/-- Fuel-driven decimal printing of a natural number, most significant digit
first.  With fuel above the number this is ordinary decimal notation, as
produced by Rust's integer `Display` implementations. -/
def natToDecAux : Nat → Nat → List Char
  | 0, _ => []
  | fuel + 1, n =>
    if n < 10 then [decDigit n]
    else natToDecAux fuel (n / 10) ++ [decDigit (n % 10)]

/-- Decimal digit list of `n` (minimal form, no leading zeros). -/
def natToDecList (n : Nat) : List Char := natToDecAux (n + 1) n

/-- Decimal string of a natural number, as Rust's `Display` prints it. -/
def natToDec (n : Nat) : String := ⟨natToDecList n⟩

/-- Decimal string of an integer, as Rust's `Display` for `i32` prints it:
a minus sign for negative values, then the minimal decimal digits. -/
def intToDec (i : Int) : String :=
  if i < 0 then "-" ++ natToDec i.natAbs else natToDec i.natAbs

/-- Value of a digit list under left-to-right decimal accumulation; `none` as
soon as a non-digit character appears.  Mirrors the digit loop inside Rust's
`from_str_radix` with radix ten. -/
def decDigitsVal (cs : List Char) : Option Nat :=
  cs.foldl
    (fun acc c =>
      match acc with
      | none => none
      | some a => if c.isDigit then some (a * 10 + (c.toNat - 48)) else none)
    (some 0)

/-- Digits-only parse of a nonempty character list (Rust's `from_str_radix`
rejects the empty digit string). -/
def parseNatDec (cs : List Char) : Option Nat :=
  match cs with
  | [] => none
  | _ => decDigitsVal cs

/-- Range check of Rust's `i32` parsing, nonnegative side. -/
def i32ChkPos (n : Nat) : Option Int :=
  if n ≤ 2147483647 then some (n : Int) else none

/-- Range check of Rust's `i32` parsing, negative side. -/
def i32ChkNeg (n : Nat) : Option Int :=
  if n ≤ 2147483648 then some (-(n : Int)) else none

/-- Transcription of `<i32 as FromStr>::from_str` (the parse used for
`RawSocket` values in `src/addr.rs` on POSIX, where `RawSocket = RawFd =
c_int`): an optional `+` or `-` sign, then one or more decimal digits, value
within the signed 32-bit range. -/
def parseI32core (cs : List Char) : Option Int :=
  match cs with
  | [] => none
  | c :: rest =>
    if c = '+' then (parseNatDec rest).bind i32ChkPos
    else if c = '-' then (parseNatDec rest).bind i32ChkNeg
    else (parseNatDec (c :: rest)).bind i32ChkPos

/-- String-level wrapper of `parseI32core`. -/
def parseI32 (s : String) : Option Int := parseI32core s.data

/-- Transcription of `<u32 as FromStr>::from_str` (the parse used for the
`LISTEN_PID` environment value, whose `Pid` type is `u32`): an optional `+`
sign, then decimal digits within the unsigned 32-bit range. -/
def parseU32core (cs : List Char) : Option Nat :=
  match cs with
  | [] => none
  | c :: rest =>
    if c = '+' then (parseNatDec rest).bind (fun n => if n ≤ 4294967295 then some n else none)
    else (parseNatDec (c :: rest)).bind (fun n => if n ≤ 4294967295 then some n else none)

/-- String-level wrapper of `parseU32core`. -/
def parseU32 (s : String) : Option Nat := parseU32core s.data

/-- Hexadecimal digit character, lowercase (as Rust's `LowerHex`). -/
def hexDigit : Nat → Char
  | 0 => '0'
  | 1 => '1'
  | 2 => '2'
  | 3 => '3'
  | 4 => '4'
  | 5 => '5'
  | 6 => '6'
  | 7 => '7'
  | 8 => '8'
  | 9 => '9'
  | 10 => 'a'
  | 11 => 'b'
  | 12 => 'c'
  | 13 => 'd'
  | 14 => 'e'
  | _ => 'f'

/-- Fuel-driven lowercase hexadecimal printing (minimal form). -/
def natToHexAux : Nat → Nat → List Char
  | 0, _ => []
  | fuel + 1, n =>
    if n < 16 then [hexDigit n]
    else natToHexAux fuel (n / 16) ++ [hexDigit (n % 16)]

/-- Lowercase hexadecimal string of a natural number, no leading zeros, as
Rust prints one 16-bit group of an IPv6 address. -/
def natToHex (n : Nat) : String := ⟨natToHexAux (n + 1) n⟩

/-- An IP address: either four IPv4 octets or eight 16-bit IPv6 groups.
Stands in for the Rust standard library's `std::net::IpAddr`, which the
crate stores opaquely inside `SocketAddr::Ip`. -/
inductive IpAddr
  | v4 (a b c d : Nat)
  | v6 (s0 s1 s2 s3 s4 s5 s6 s7 : Nat)
deriving DecidableEq

/-- Transcription of the Rust standard library's `Display` for `Ipv4Addr`:
dotted decimal octets. -/
def ipv4Display (a b c d : Nat) : String :=
  natToDec a ++ "." ++ natToDec b ++ "." ++ natToDec c ++ "." ++ natToDec d

/-- Groups joined by a colon, each in minimal lowercase hex — the
`fmt_subslice` helper inside the standard library's `Display` for
`Ipv6Addr`. -/
def fmtHexGroups (gs : List Nat) : String :=
  String.intercalate ":" (gs.map natToHex)

/-- The longest-run-of-zero-groups scan from the standard library's
`Display` for `Ipv6Addr`: returns `(start, length)` of the longest run of
zero groups, the earliest one on ties (a later run replaces the recorded
one only when strictly longer). -/
def longestZeroRunAux : List Nat → Nat → Nat × Nat → Nat × Nat → Nat × Nat
  | [], _, _, longest => longest
  | g :: rest, i, cur, longest =>
    if g = 0 then
      let curStart := if cur.2 = 0 then i else cur.1
      let cur2 : Nat × Nat := (curStart, cur.2 + 1)
      let longest2 := if cur2.2 > longest.2 then cur2 else longest
      longestZeroRunAux rest (i + 1) cur2 longest2
    else
      longestZeroRunAux rest (i + 1) (0, 0) longest

/-- Entry point of the zero-run scan. -/
def longestZeroRun (gs : List Nat) : Nat × Nat := longestZeroRunAux gs 0 (0, 0) (0, 0)

/-- Transcription of the Rust standard library's `Display` for `Ipv6Addr`
(the code `SocketAddr`'s own `Display` delegates to): an IPv4-mapped
address prints as `::ffff:a.b.c.d`; otherwise the longest run of at least
two zero groups is compressed to `::`; otherwise all eight groups are
printed. -/
def ipv6Display (s0 s1 s2 s3 s4 s5 s6 s7 : Nat) : String :=
  if s0 = 0 ∧ s1 = 0 ∧ s2 = 0 ∧ s3 = 0 ∧ s4 = 0 ∧ s5 = 65535 then
    "::ffff:" ++ ipv4Display (s6 / 256) (s6 % 256) (s7 / 256) (s7 % 256)
  else
    let gs := [s0, s1, s2, s3, s4, s5, s6, s7]
    let z := longestZeroRun gs
    if z.2 > 1 then
      fmtHexGroups (gs.take z.1) ++ "::" ++ fmtHexGroups (gs.drop (z.1 + z.2))
    else fmtHexGroups gs

/-- Transcription of `Display` of a bare `std::net::IpAddr` (no port), as invoked by the
crate for `SocketAddr::Ip` with no port. -/
def ipAddrDisplayStd : IpAddr → String
  | .v4 a b c d => ipv4Display a b c d
  | .v6 s0 s1 s2 s3 s4 s5 s6 s7 => ipv6Display s0 s1 s2 s3 s4 s5 s6 s7

/-- Transcription of `Display` of `std::net::SocketAddr` (address with port), as invoked by
the crate for `SocketAddr::Ip` with a port: `a.b.c.d:p` for IPv4 and
`[groups]:p` for IPv6. -/
def sockAddrDisplayStd (a : IpAddr) (port : Nat) : String :=
  match a with
  | .v4 _ _ _ _ => ipAddrDisplayStd a ++ ":" ++ natToDec port
  | .v6 _ _ _ _ _ _ _ _ => "[" ++ ipAddrDisplayStd a ++ "]:" ++ natToDec port

/-- The crate's `SocketAddr` tagged union (src/addr.rs lines 52-173), in its
POSIX configuration: the `SystemdNumeric` variant is present and raw socket
values are file descriptor numbers (signed integers). -/
inductive SocketAddr
  | ip (addr : IpAddr) (port : Option Nat)
  | unix (path : String)
  | inherit (socket : Int)
  | inheritStdin
  | systemdNumeric (socket : Int)
deriving DecidableEq

/-- Rust's `str::starts_with` on literal pattern strings. -/
def strStartsWith (s p : String) : Bool := p.data.isPrefixOf s.data

/-- Drop the first `n` characters of a string.  Stands in for the byte-index
slicing `s.get(prefix.len()..)` of src/addr.rs line 377; the sliced-off
patterns are pure ASCII, so byte counts and character counts agree. -/
def strDropChars (s : String) (n : Nat) : String := ⟨s.data.drop n⟩

/-- Transcription of `str_is_unix_domain_socket_prefix` (src/addr.rs lines
301-320): a string denotes a Unix-domain socket path when it starts with a
backslash, a slash, a dot-backslash, a dot-slash, or an ASCII drive letter
followed by a colon and a backslash.  The source inspects the first three
bytes for the drive-letter pattern; since that pattern is pure ASCII, the
first three characters carry the same test. -/
def strIsUnixSocketPathStart (s : String) : Bool :=
  strStartsWith s "\\" || strStartsWith s "/" ||
  strStartsWith s ".\\" || strStartsWith s "./" ||
  (match s.data with
   | letter :: colon :: backslash :: _ =>
     letter.isAlpha && colon == ':' && backslash == '\\'
   | _ => false)

/-- The crate's `InvalidSocketAddrError` (src/errors.rs lines 44-61).  The
payloads (the underlying `AddrParseError` / `ParseIntError` diagnostics) are
not modelled. -/
inductive InvalidSocketAddrError
  | unrecognized
  | invalidSocketNum
deriving DecidableEq

/-- Transcription of `impl FromStr for SocketAddr` (src/addr.rs lines
331-421), POSIX configuration.  The standard library's IP parsers — the two
external calls `IpAddr::from_str` and `std::net::SocketAddr::from_str` —
are passed in as the capability parameters `ipParse` (address only) and
`sockParse` (address with port).  Dispatch, first match wins: the exact
literal `stdin`; the prefixes `fd:`, `socket:`, `systemd:` with the
remainder parsed as a raw file descriptor (`i32`); the Unix-path syntax;
then the two IP parses. -/
def SocketAddr.fromStr (ipParse : String → Option IpAddr)
    (sockParse : String → Option (IpAddr × Nat)) (s : String) :
    Except InvalidSocketAddrError SocketAddr :=
  if s = "stdin" then .ok .inheritStdin
  else
    let found : Option (Bool × Nat) :=
      if strStartsWith s "fd:" then some (false, 3)
      else if strStartsWith s "socket:" then some (false, 7)
      else if strStartsWith s "systemd:" then some (true, 8)
      else none
    match found with
    | some (isSystemd, plen) =>
      match parseI32 (strDropChars s plen) with
      | none => .error .invalidSocketNum
      | some n => .ok (if isSystemd then .systemdNumeric n else .inherit n)
    | none =>
      if strIsUnixSocketPathStart s then .ok (.unix s)
      else
        match ipParse s with
        | some a => .ok (.ip a none)
        | none =>
          match sockParse s with
          | some ap => .ok (.ip ap.1 (some ap.2))
          | none => .error .unrecognized

/-- Transcription of `impl Display for SocketAddr` (src/addr.rs lines
423-446), POSIX configuration: `fd:` is used for `Inherit` (not `socket:`),
the path separator written before an unprefixed Unix path is `/`, and the
standard library's IP `Display`s are the capability parameters `ipDisp` and
`sockDisp`. -/
def SocketAddr.display (ipDisp : IpAddr → String) (sockDisp : IpAddr → Nat → String) :
    SocketAddr → String
  | .ip a none => ipDisp a
  | .ip a (some p) => sockDisp a p
  | .unix path => (if strIsUnixSocketPathStart path then "" else "./") ++ path
  | .inherit n => "fd:" ++ intToDec n
  | .inheritStdin => "stdin"
  | .systemdNumeric n => "systemd:" ++ intToDec n

/-- The value a round trip through `display` and `fromStr` reproduces: the
address itself, except that a Unix path without a recognized path syntax
gains the `./` written by `display`. -/
def SocketAddr.normalized : SocketAddr → SocketAddr
  | .unix path =>
    .unix ((if strIsUnixSocketPathStart path then "" else "./") ++ path)
  | e => e

/-- Transcription of `SocketAddr::is_inherited` (src/addr.rs lines 177-188),
POSIX configuration. -/
def SocketAddr.is_inherited : SocketAddr → Bool
  | .inherit _ => true
  | .inheritStdin => true
  | .systemdNumeric _ => true
  | _ => false

/-- The crate's `CleanupSocketError` (src/errors.rs lines 331-347).  The
wrapped `io::Error` payloads are not modelled. -/
inductive CleanupSocketError
  | stat
  | unlink
deriving DecidableEq

/-- The crate's `OpenSocketError` (src/errors.rs lines 66-278), POSIX
configuration (no `WindowsGetStdin`).  The wrapped `io::Error` payloads are
not modelled.  The `portRequired` and `dupInherited` cases are constructed
by src/open.rs (lines 254 and 214) though absent from the provided
src/errors.rs revision. -/
inductive OpenSocketError
  | invalidUnixPath
  | invalidSystemdFd
  | systemdFdNotSupported
  | portRequired
  | inheritWrongType (expected actual : Int)
  | alreadyInherited
  | unsupportedUserOption (name : String)
  | inapplicableUserOption (name : String)
  | lookupOwner
  | ownerNotFound
  | lookupUnixGroup
  | unixGroupNotFound
  | createSocket
  | mkdirParents
  | cleanup (error : CleanupSocketError)
  | setSockOpt (option : String)
  | beforeBind
  | bind
  | setOwner
  | setPermissions
  | listen
  | dupInherited
  | checkInheritedSocket
  | inheritedIsNotListening
  | inheritedIsListening
deriving DecidableEq

/-- The crate's `SocketUserOptions` (src/options.rs lines 27-147), POSIX
configuration with every platform-conditional field present.  Permission
modes and owner/group ids are opaque numbers here. -/
structure SocketUserOptions where
  unix_socket_no_unlink : Bool
  unix_socket_permissions : Option Nat
  unix_socket_owner : Option Nat
  unix_socket_group : Option Nat
  ip_socket_reuse_port : Bool
  ip_socket_v6_only : Bool
  listen_socket_backlog : Option Int
deriving DecidableEq

/-- The derived `Default` of `SocketUserOptions`: every field unset. -/
def SocketUserOptions.defaults : SocketUserOptions :=
  ⟨false, none, none, none, false, false, none⟩

/-- The constant `SocketUserOptions::DEFAULT_LISTEN_SOCKET_BACKLOG` (src/options.rs lines
151-160), non-Horizon value. -/
def DEFAULT_LISTEN_SOCKET_BACKLOG : Int := 128

/-- The value `socket2::Type::STREAM` (the C `SOCK_STREAM`). -/
def STREAM : Int := 1

/-- The value `socket2::Type::DGRAM` (the C `SOCK_DGRAM`). -/
def DGRAM : Int := 2

/-- The value `socket2::Protocol::TCP` (the C `IPPROTO_TCP`). -/
def IPPROTO_TCP : Int := 6

/-- The crate's `SocketAppOptions` (src/options.rs lines 167-202).  The
`before_bind` hook — an arbitrary caller function on the socket — is
reduced to its observable outcome: `none` for no hook, `some b` for a hook
that errors iff `b`. -/
structure SocketAppOptions where
  type : Int
  protocol : Option Int
  listen : Bool
  default_port : Option Nat
  before_bind : Option Bool
deriving DecidableEq

/-- Transcription of `SocketAppOptions::new` (src/options.rs lines 206-214): the given type,
all other fields at their defaults. -/
def SocketAppOptions.new (t : Int) : SocketAppOptions :=
  ⟨t, none, true, none, none⟩

/-- Transcription of `util::check_inapplicable` (src/util.rs lines 82-89). -/
def check_inapplicable {α : Type} (option : Option α) (name : String) :
    Except OpenSocketError Unit :=
  if option.isSome then .error (.inapplicableUserOption name) else .ok ()

/-- Transcription of `util::check_inapplicable_bool` (src/util.rs lines 91-98). -/
def check_inapplicable_bool (option : Bool) (name : String) :
    Except OpenSocketError Unit :=
  if option then .error (.inapplicableUserOption name) else .ok ()

/-- Transcription of `unix_security::prepare` (src/unix_security.rs lines 483-494): with no
socket path (a non-path socket), each of the three Unix security options is
inapplicable. -/
def prepare (options : SocketUserOptions) (socket_path : Option String) :
    Except OpenSocketError Unit :=
  match socket_path with
  | some _ => .ok ()
  | none =>
    match check_inapplicable options.unix_socket_permissions "unix_socket_permissions" with
    | .error e => .error e
    | .ok () =>
      match check_inapplicable options.unix_socket_owner "unix_socket_owner" with
      | .error e => .error e
      | .ok () => check_inapplicable options.unix_socket_group "unix_socket_group"

/-- Transcription of `unix_security::apply` (src/unix_security.rs lines 496-518): `chown`
then `chmod` on the socket path.  The model file system does not track
ownership or mode metadata, and the OS-dependent failures (`SetOwner`,
`SetPermissions`) have no analogue here, so the call is modelled as
succeeding without state change. -/
def unix_security_apply (_options : SocketUserOptions) (_socket_path : Option String) :
    Except OpenSocketError Unit := .ok ()

/-- What kind of file sits at a path in the model file system. -/
inductive FileKind
  | unixSocket
  | regular
deriving DecidableEq

/-- Association-list lookup for the model file system. -/
def lookupFs : List (String × FileKind) → String → Option FileKind
  | [], _ => none
  | (p, k) :: rest, q => if p = q then some k else lookupFs rest q

/-- Removal of a path from the model file system. -/
def eraseFs : List (String × FileKind) → String → List (String × FileKind)
  | [], _ => []
  | (p, k) :: rest, q => if p = q then eraseFs rest q else (p, k) :: eraseFs rest q

/-- Creation (or replacement) of a file in the model file system. -/
def insertFs (fs : List (String × FileKind)) (p : String) (k : FileKind) :
    List (String × FileKind) :=
  (p, k) :: eraseFs fs p

/-- Transcription of `cleanup_unix_path_socket` (src/addr.rs lines 536-558)
over the model file system, returning the resulting file system.
`is_unix_socket` (src/sys/other.rs lines 59-62) fails with `NotFound` when
nothing is at the path, which the source's `or_else` maps to `Ok(false)`;
other stat errors (surfaced as `CleanupSocketError::Stat`) have no analogue
in the deterministic model.  When the check found a socket, the source
deletes it with `fs::remove_file`, ignoring a `NotFound` failure; in the
sequential model the file is still present at that point, so the deletion
succeeds.  Other unlink errors (`CleanupSocketError::Unlink`) likewise have
no analogue. -/
def cleanup_unix_path_socket (path : String) (fs : List (String × FileKind)) :
    Except CleanupSocketError (List (String × FileKind)) :=
  let is_unix_socket : Bool :=
    match lookupFs fs path with
    | none => false
    | some FileKind.unixSocket => true
    | some FileKind.regular => false
  if is_unix_socket then .ok (eraseFs fs path)
  else .ok fs

/-- Transcription of `SocketAddr::cleanup` (src/addr.rs lines 219-225) over
the model file system: only the `Unix` variant acts. -/
def SocketAddr.cleanup (addr : SocketAddr) (fs : List (String × FileKind)) :
    Except CleanupSocketError (List (String × FileKind)) :=
  match addr with
  | .unix path => cleanup_unix_path_socket path fs
  | _ => .ok fs

/-- A resolved bind target, standing in for the `socket2::SockAddr` the
engine constructs before calling `open_new`. -/
inductive ResolvedSockAddr
  | ip (addr : IpAddr) (port : Nat)
  | unix (path : String)
deriving DecidableEq

/-- The OS-visible state of one open socket: its type, whether it is in a
listening state, what it is bound to, the socket options set on it, and —
when this process put it into a listening state — the backlog passed to
`listen`. -/
structure SocketInfo where
  sockType : Int
  listening : Bool
  boundTo : Option ResolvedSockAddr
  reuseAddr : Bool
  reusePort : Bool
  v6Only : Bool
  listenedWith : Option Int
deriving DecidableEq

/-- A freshly created socket of the given type (`Socket::new`). -/
def mkSocketInfo (t : Int) : SocketInfo :=
  ⟨t, false, none, false, false, false, none⟩

/-- The OS state visible to the engine: the file-descriptor table (an
association list), a fresh-descriptor counter, and the file system. -/
structure OsState where
  fds : List (Int × SocketInfo)
  nextFd : Int
  fs : List (String × FileKind)
deriving DecidableEq

/-- Descriptor-table lookup. -/
def findFd : List (Int × SocketInfo) → Int → Option SocketInfo
  | [], _ => none
  | (fd, info) :: rest, q => if fd = q then some info else findFd rest q

/-- Descriptor-table update (first matching entry). -/
def updFd : List (Int × SocketInfo) → Int → (SocketInfo → SocketInfo) →
    List (Int × SocketInfo)
  | [], _, _ => []
  | (fd, info) :: rest, q, f =>
    if fd = q then (fd, f info) :: rest else (fd, info) :: updFd rest q f

/-- Descriptor-table removal (closing a descriptor). -/
def eraseFd : List (Int × SocketInfo) → Int → List (Int × SocketInfo)
  | [], _ => []
  | (fd, info) :: rest, q =>
    if fd = q then eraseFd rest q else (fd, info) :: eraseFd rest q

/-- Allocation of a fresh descriptor for the given socket state (socket
creation and descriptor duplication both allocate). -/
def OsState.alloc (st : OsState) (info : SocketInfo) : OsState × Int :=
  (⟨(st.nextFd, info) :: st.fds, st.nextFd + 1, st.fs⟩, st.nextFd)

/-- Closing a descriptor (a dropped `Socket` closes its descriptor). -/
def OsState.dropSocket (st : OsState) (fd : Int) : OsState :=
  ⟨eraseFd st.fds fd, st.nextFd, st.fs⟩

/-- In-place update of one socket's state. -/
def OsState.updSocket (st : OsState) (fd : Int) (f : SocketInfo → SocketInfo) : OsState :=
  ⟨updFd st.fds fd f, st.nextFd, st.fs⟩

/-- Replacing the file system component. -/
def OsState.setFs (st : OsState) (fs : List (String × FileKind)) : OsState :=
  ⟨st.fds, st.nextFd, fs⟩

/-- Descriptor-table well-formedness: every allocated descriptor is below
the fresh-descriptor counter (so allocation never collides). -/
def OsState.WF (st : OsState) : Prop :=
  ∀ p ∈ st.fds, p.1 < st.nextFd

instance (st : OsState) : Decidable st.WF :=
  inferInstanceAs (Decidable (∀ p ∈ st.fds, p.1 < st.nextFd))

/-- The platform configuration the engine branches on.  Only the one
platform-conditional feature a claim depends on is kept: whether the OS can
query the listening state of an existing socket (`cfg` gate at src/open.rs
lines 230-236: AIX, Android, FreeBSD, Fuchsia, Linux). -/
structure Platform where
  supportsIsListener : Bool
deriving DecidableEq

/-- The constant `sys::SD_LISTEN_FDS_START` (src/sys/other.rs line 24). -/
def SD_LISTEN_FDS_START : Int := 3

/-- The operation `i32::saturating_add` on the values that occur here (both summands
nonnegative, so only the upper bound matters). -/
def saturatingAddI32 (a b : Int) : Int := min (a + b) 2147483647

/-- Transcription of the `SD_LISTEN_FDS_END` lazy static (src/sys/other.rs
lines 26-49): `LISTEN_PID` must parse as a `u32` equal to the live process
id, `LISTEN_FDS` must parse as a positive count, and the window end is
`SD_LISTEN_FDS_START` plus that count (saturating).  Any absence or
mismatch yields `none` (no activation window). -/
def sdListenFdsEnd (listenPid : Option String) (actualPid : Nat)
    (listenFds : Option String) : Option Int :=
  match listenPid with
  | none => none
  | some pidStr =>
    match parseU32 pidStr with
    | none => none
    | some expectedPid =>
      if actualPid ≠ expectedPid then none
      else
        match listenFds with
        | none => none
        | some fdsStr =>
          match parseI32 fdsStr with
          | none => none
          | some count =>
            if count ≥ 1 then some (saturatingAddI32 SD_LISTEN_FDS_START count)
            else none

/-- The guard of the `SystemdNumeric` arm of `open` (src/open.rs lines
285-288), transcribed exactly: the descriptor is accepted when it is at
least `SD_LISTEN_FDS_START` OR the activation window exists and the
descriptor is at most its end. -/
def sdGuard (sdEnd : Option Int) (socket : Int) : Bool :=
  decide (SD_LISTEN_FDS_START ≤ socket) ||
  (match sdEnd with
   | some sd_listen_fds_end => decide (socket ≤ sd_listen_fds_end)
   | none => false)

/-- Modelled from the spec: the crate's `is_socket_probably_tcp` helper is
called at src/open.rs line 145 but its defining source file is not under
src/.  Per spec section 4.2 step 5, the heuristic is: an explicit protocol
equal to TCP; else, where the platform can query the created socket's
protocol, that protocol equal to TCP (in this model the created socket's
protocol is the requested one, so only the explicit protocol matters);
else, stream type together with an IPv4/IPv6 domain.  Its result only gates
the `SO_REUSEADDR` option below. -/
def is_socket_probably_tcp (app : SocketAppOptions) (address : ResolvedSockAddr) : Bool :=
  match app.protocol with
  | some p => p == IPPROTO_TCP
  | none =>
    match address with
    | .ip _ _ => app.type == STREAM
    | .unix _ => false

/-- The socket path carried by a `SocketAddr`, when it has one (the
`unix_socket_path` computation at src/open.rs lines 100-103). -/
def SocketAddr.unixPathOf : SocketAddr → Option String
  | .unix path => some path
  | _ => none

/-- The stale-socket-cleanup and parent-folder stage (src/open.rs lines
128-139): for a path-based Unix socket, unless `unix_socket_no_unlink` is
set, run `cleanup_unix_path_socket` (its failure becomes
`OpenSocketError::Cleanup`); `fs::create_dir_all` for the parent folders is
modelled as succeeding (the model file system only tracks the file at the
socket path itself).  Returns the resulting file system. -/
def cleanupStage (user : SocketUserOptions) (unix_socket_path : Option String)
    (fs : List (String × FileKind)) :
    Except OpenSocketError (List (String × FileKind)) :=
  match unix_socket_path with
  | some socket_path =>
    if user.unix_socket_no_unlink then Except.ok fs
    else
      match cleanup_unix_path_socket socket_path fs with
      | .error e => .error (OpenSocketError.cleanup e)
      | .ok fs2 => .ok fs2
  | none => Except.ok fs

/-- The socket-option stage (src/open.rs lines 141-168): `SO_REUSEADDR` for
a listening probably-TCP socket (non-Windows), `SO_REUSEPORT` and
`IPV6_V6ONLY` when requested.  Each `setsockopt` is modelled as
succeeding. -/
def applySockOpts (app : SocketAppOptions) (user : SocketUserOptions)
    (address : ResolvedSockAddr) (listen_backlog : Option Int)
    (st2 : OsState) (fd : Int) : OsState :=
  let st3 :=
    if listen_backlog.isSome ∧ is_socket_probably_tcp app address = true then
      st2.updSocket fd (fun i => { i with reuseAddr := true })
    else st2
  let st4 :=
    if user.ip_socket_reuse_port then
      st3.updSocket fd (fun i => { i with reusePort := true })
    else st3
  if user.ip_socket_v6_only then
    st4.updSocket fd (fun i => { i with v6Only := true })
  else st4

/-- The outcome of the optional `before_bind` hook (src/open.rs lines
171-174). -/
def beforeBindCheck (app : SocketAppOptions) : Except OpenSocketError Unit :=
  match app.before_bind with
  | some true => .error .beforeBind
  | _ => .ok ()

/-- The `bind` call (src/open.rs lines 176-177), modelled as succeeding:
the socket records its bound address, and binding a path-based Unix socket
creates the socket file at that path. -/
def bindState (address : ResolvedSockAddr) (st5 : OsState) (fd : Int) : OsState :=
  let st6 := st5.updSocket fd (fun i => { i with boundTo := some address })
  match address with
  | .unix path => st6.setFs (insertFs st6.fs path FileKind.unixSocket)
  | _ => st6

/-- The `listen` stage (src/open.rs lines 184-187): called exactly when the
computed backlog is present, with that backlog; modelled as succeeding. -/
def listenStage (listen_backlog : Option Int) (st7 : OsState) (fd : Int) :
    Except OpenSocketError Int × OsState :=
  match listen_backlog with
  | some backlog =>
    (.ok fd,
     st7.updSocket fd (fun i => { i with listening := true, listenedWith := some backlog }))
  | none => (.ok fd, st7)

/-- The tail of the `open_new` closure of `open` (src/open.rs lines
122-189) over the model OS state, POSIX configuration, from the point where
the socket `fd` has just been created in `st1`: the cleanup stage, the
socket options, the `before_bind` hook, `bind`, `unix_security::apply`, and
`listen`, in the source's order.  A `Socket` dropped by an error return
closes its descriptor (`OsState.dropSocket`). -/
def openNewConfigure (app : SocketAppOptions) (user : SocketUserOptions)
    (unix_socket_path : Option String) (address : ResolvedSockAddr)
    (listen_backlog : Option Int) (st1 : OsState) (fd : Int) :
    Except OpenSocketError Int × OsState :=
  match cleanupStage user unix_socket_path st1.fs with
  | .error e => (.error e, st1.dropSocket fd)
  | .ok fs2 =>
    let st5 := applySockOpts app user address listen_backlog (st1.setFs fs2) fd
    match beforeBindCheck app with
    | .error e => (.error e, st5.dropSocket fd)
    | .ok () =>
      let st7 := bindState address st5 fd
      match unix_security_apply user unix_socket_path with
      | .error e => (.error e, st7.dropSocket fd)
      | .ok () => listenStage listen_backlog st7 fd

/-- The listen-backlog computation of `open_new` (src/open.rs lines
109-121): the backlog is present — the user-supplied value or the platform
default — exactly when the application wants a listening stream socket;
otherwise an explicitly set `listen_socket_backlog` is inapplicable. -/
def computeListenBacklog (app : SocketAppOptions) (user : SocketUserOptions) :
    Except OpenSocketError (Option Int) :=
  if app.listen ∧ app.type = STREAM then
    .ok (some (user.listen_socket_backlog.getD DEFAULT_LISTEN_SOCKET_BACKLOG))
  else
    match check_inapplicable user.listen_socket_backlog "listen_socket_backlog" with
    | .error e => .error e
    | .ok () => .ok none

/-- The head of the `open_new` closure (src/open.rs lines 98-126): the
`unix_security::prepare` check, the listen-backlog computation, and the
socket creation (`Socket::new`, which allocates the descriptor, modelled as
succeeding), handing over to `openNewConfigure` for the rest. -/
def openNew (app : SocketAppOptions) (user : SocketUserOptions)
    (orig : SocketAddr) (address : ResolvedSockAddr) (st : OsState) :
    Except OpenSocketError Int × OsState :=
  match prepare user orig.unixPathOf with
  | .error e => (.error e, st)
  | .ok () =>
    match computeListenBacklog app user with
    | .error e => (.error e, st)
    | .ok listen_backlog =>
      openNewConfigure app user orig.unixPathOf address listen_backlog
        (st.alloc (mkSocketInfo app.type)).1 (st.alloc (mkSocketInfo app.type)).2

/-- Transcription of the `inherit` closure of `open` (src/open.rs lines
192-247) over the model OS state, POSIX configuration (all the
`cfg`-conditional inapplicability checks are present).  Duplication
(`BorrowedSocket::borrow_raw` then `try_clone_to_owned`, the `dup` system
call) fails with `DupInherited` when the descriptor is not open; on success
it leaves the original table entry untouched and allocates a fresh
descriptor with the same socket state.  `Socket::type` and `is_listener`
are modelled as succeeding. -/
def inheritSocket (plat : Platform) (app : SocketAppOptions) (user : SocketUserOptions)
    (socket : Int) (st : OsState) : Except OpenSocketError Int × OsState :=
  match check_inapplicable user.unix_socket_permissions "unix_socket_permissions" with
  | .error e => (.error e, st)
  | .ok () =>
    match check_inapplicable user.unix_socket_owner "unix_socket_owner" with
    | .error e => (.error e, st)
    | .ok () =>
      match check_inapplicable user.unix_socket_group "unix_socket_group" with
      | .error e => (.error e, st)
      | .ok () =>
        match check_inapplicable_bool user.ip_socket_reuse_port "ip_socket_reuse_port" with
        | .error e => (.error e, st)
        | .ok () =>
          match check_inapplicable_bool user.ip_socket_v6_only "ip_socket_v6_only" with
          | .error e => (.error e, st)
          | .ok () =>
            match check_inapplicable user.listen_socket_backlog "listen_socket_backlog" with
            | .error e => (.error e, st)
            | .ok () =>
              match findFd st.fds socket with
              | none => (.error .dupInherited, st)
              | some info =>
                let allocated := st.alloc info
                let st1 := allocated.1
                let newFd := allocated.2
                let actual_type := info.sockType
                if actual_type ≠ app.type then
                  (.error (.inheritWrongType app.type actual_type), st1.dropSocket newFd)
                else
                  if plat.supportsIsListener = true ∧ actual_type = STREAM then
                    if app.listen ≠ info.listening then
                      (.error
                        (if app.listen then OpenSocketError.inheritedIsNotListening
                         else OpenSocketError.inheritedIsListening),
                       st1.dropSocket newFd)
                    else (.ok newFd, st1)
                  else (.ok newFd, st1)

/-- Transcription of `open` (src/open.rs lines 91-298) over the model OS
state, POSIX configuration.  `sdEnd` is the cached `SD_LISTEN_FDS_END`
value (see `sdListenFdsEnd`).  `socket2::SockAddr::unix` fails
(`InvalidUnixPath`) only for over-long paths, an OS limit the model leaves
out.  `sys::get_stdin_as_socket` on POSIX infallibly returns descriptor
zero. -/
def openSocket (plat : Platform) (sdEnd : Option Int) (address : SocketAddr)
    (app : SocketAppOptions) (user : SocketUserOptions) (st : OsState) :
    Except OpenSocketError Int × OsState :=
  match address with
  | .ip addr port =>
    match port.or app.default_port with
    | none => (.error .portRequired, st)
    | some p => openNew app user address (.ip addr p) st
  | .unix path => openNew app user address (.unix path) st
  | .inherit socket => inheritSocket plat app user socket st
  | .inheritStdin => inheritSocket plat app user 0 st
  | .systemdNumeric socket =>
    if sdGuard sdEnd socket then inheritSocket plat app user socket st
    else (.error .invalidSystemdFd, st)

/-- The names of the user options set in `user` that the `inherit` closure
rejects as inapplicable, in the order the closure checks them (src/open.rs
lines 195-205). -/
def inheritInapplicableSet (user : SocketUserOptions) : List String :=
  (if user.unix_socket_permissions.isSome then ["unix_socket_permissions"] else []) ++
  (if user.unix_socket_owner.isSome then ["unix_socket_owner"] else []) ++
  (if user.unix_socket_group.isSome then ["unix_socket_group"] else []) ++
  (if user.ip_socket_reuse_port then ["ip_socket_reuse_port"] else []) ++
  (if user.ip_socket_v6_only then ["ip_socket_v6_only"] else []) ++
  (if user.listen_socket_backlog.isSome then ["listen_socket_backlog"] else [])

/-- The names of the path-only security options set in `user`, the ones
`unix_security::prepare` rejects for a socket without a path, in the order
it checks them. -/
def pathOnlyOptionSet (user : SocketUserOptions) : List String :=
  (if user.unix_socket_permissions.isSome then ["unix_socket_permissions"] else []) ++
  (if user.unix_socket_owner.isSome then ["unix_socket_owner"] else []) ++
  (if user.unix_socket_group.isSome then ["unix_socket_group"] else [])

/-- A placeholder IP parser (always failing), used to instantiate the
capability parameters of `SocketAddr.fromStr` at concrete inputs whose
dispatch never reaches the IP stage. -/
def toyIpParse : String → Option IpAddr := fun _ => none

/-- A placeholder IP-with-port parser (always failing); see `toyIpParse`. -/
def toySockParse : String → Option (IpAddr × Nat) := fun _ => none

/-- A placeholder IP renderer, used to instantiate the capability
parameters of `SocketAddr.display` at non-IP inputs. -/
def toyIpDisp : IpAddr → String := fun _ => "0.0.0.0"

/-- A placeholder IP-with-port renderer; see `toyIpDisp`. -/
def toySockDisp : IpAddr → Nat → String := fun _ p => "0.0.0.0:" ++ natToDec p

/-- A rendered IP string collides with none of the reserved address
syntaxes: it is not the literal `stdin`, carries none of the three inherit
prefixes, and does not match the Unix-path syntax.  This holds for every
string the standard library's IP `Display`s produce except the IPv6
`fd:`-collision family (first group `0xfd`, no port), which is exactly the
round-trip failure exhibited against claim C3. -/
def NoSyntaxCollision (s : String) : Prop :=
  s ≠ "stdin" ∧ strStartsWith s "fd:" = false ∧
  strStartsWith s "socket:" = false ∧ strStartsWith s "systemd:" = false ∧
  strIsUnixSocketPathStart s = false

end SocketConfig

namespace SocketConfig

theorem decDigit_isDigit (n : Nat) (h : n < 10) : (decDigit n).isDigit = true := by
  interval_cases n <;> decide

theorem decDigit_val (n : Nat) (h : n < 10) : (decDigit n).toNat - 48 = n := by
  interval_cases n <;> decide

theorem decDigitsVal_append_singleton (xs : List Char) (c : Char) :
    decDigitsVal (xs ++ [c]) =
      match decDigitsVal xs with
      | none => none
      | some a => if c.isDigit then some (a * 10 + (c.toNat - 48)) else none := by
  simp [decDigitsVal, List.foldl_append]

theorem natToDecAux_spec (fuel : Nat) :
    ∀ n, n < fuel →
      decDigitsVal (natToDecAux fuel n) = some n ∧
      natToDecAux fuel n ≠ [] ∧
      ∀ c ∈ natToDecAux fuel n, c.isDigit = true := by
  induction fuel with
  | zero => intro n h; omega
  | succ fuel ih =>
    intro n h
    by_cases h10 : n < 10
    · refine ⟨?_, ?_, ?_⟩
      · simp only [natToDecAux, if_pos h10]
        simp [decDigitsVal, decDigit_isDigit n h10, decDigit_val n h10]
      · simp [natToDecAux, if_pos h10]
      · intro c hc
        simp only [natToDecAux, if_pos h10, List.mem_singleton] at hc
        subst hc; exact decDigit_isDigit n h10
    · have hdiv : n / 10 < fuel := by
        have : n / 10 < n := Nat.div_lt_self (by omega) (by omega)
        omega
      obtain ⟨hval, hne, hdigits⟩ := ih (n / 10) hdiv
      have hmod : n % 10 < 10 := Nat.mod_lt _ (by omega)
      refine ⟨?_, ?_, ?_⟩
      · simp only [natToDecAux, if_neg h10]
        rw [decDigitsVal_append_singleton, hval]
        simp only [decDigit_isDigit _ hmod, decDigit_val _ hmod, if_true]
        congr 1
        omega
      · simp [natToDecAux, if_neg h10]
      · intro c hc
        simp only [natToDecAux, if_neg h10, List.mem_append, List.mem_singleton] at hc
        rcases hc with hc | hc
        · exact hdigits c hc
        · subst hc; exact decDigit_isDigit _ hmod

theorem parseNatDec_natToDecList (n : Nat) : parseNatDec (natToDecList n) = some n := by
  obtain ⟨hval, hne, -⟩ := natToDecAux_spec (n + 1) n (by omega)
  unfold natToDecList
  cases hxs : natToDecAux (n + 1) n with
  | nil => exact absurd hxs hne
  | cons c cs => rw [← hxs]; simpa [parseNatDec, hxs] using hval

theorem natToDecList_head_digit (n : Nat) :
    ∃ c cs, natToDecList n = c :: cs ∧ c.isDigit = true := by
  obtain ⟨-, hne, hdigits⟩ := natToDecAux_spec (n + 1) n (by omega)
  unfold natToDecList
  cases hxs : natToDecAux (n + 1) n with
  | nil => exact absurd hxs hne
  | cons c cs =>
    exact ⟨c, cs, rfl, hdigits c (by rw [hxs]; exact List.mem_cons_self c cs)⟩

theorem digit_ne_plus {c : Char} (h : c.isDigit = true) : c ≠ '+' := by
  intro he; subst he; simp [Char.isDigit] at h

theorem digit_ne_minus {c : Char} (h : c.isDigit = true) : c ≠ '-' := by
  intro he; subst he; simp [Char.isDigit] at h

theorem parseI32core_minus (rest : List Char) :
    parseI32core ('-' :: rest) = (parseNatDec rest).bind i32ChkNeg := by
  simp [parseI32core]

theorem parseI32core_digit (c : Char) (rest : List Char) (h1 : c ≠ '+') (h2 : c ≠ '-') :
    parseI32core (c :: rest) = (parseNatDec (c :: rest)).bind i32ChkPos := by
  simp [parseI32core, h1, h2]

/-- Round trip of the `i32` printing/parsing pair on the 32-bit range. -/
theorem parseI32_intToDec (i : Int)
    (hlo : -2147483648 ≤ i) (hhi : i ≤ 2147483647) :
    parseI32 (intToDec i) = some i := by
  obtain ⟨c, cs, hcons, hdig⟩ := natToDecList_head_digit i.natAbs
  have habs : i.natAbs ≤ 2147483648 := by omega
  by_cases hneg : i < 0
  · have : intToDec i = "-" ++ natToDec i.natAbs := by simp [intToDec, hneg]
    rw [this]
    have hdata : ("-" ++ natToDec i.natAbs).data = '-' :: natToDecList i.natAbs := rfl
    rw [parseI32, hdata, parseI32core_minus, parseNatDec_natToDecList]
    show i32ChkNeg i.natAbs = some i
    rw [i32ChkNeg, if_pos habs]
    congr 1
    omega
  · have hpos : 0 ≤ i := by omega
    have : intToDec i = natToDec i.natAbs := by simp [intToDec, hneg]
    rw [this]
    have hdata : (natToDec i.natAbs).data = natToDecList i.natAbs := rfl
    rw [parseI32, hdata, hcons, parseI32core_digit c cs (digit_ne_plus hdig)
      (digit_ne_minus hdig), ← hcons, parseNatDec_natToDecList]
    show i32ChkPos i.natAbs = some i
    rw [i32ChkPos, if_pos (by omega : i.natAbs ≤ 2147483647)]
    congr 1
    omega

end SocketConfig

namespace SocketConfig

theorem findFd_head (fd : Int) (i : SocketInfo) (rest : List (Int × SocketInfo)) :
    findFd ((fd, i) :: rest) fd = some i := by
  simp [findFd]

theorem updFd_head (fd : Int) (i : SocketInfo) (rest : List (Int × SocketInfo))
    (f : SocketInfo → SocketInfo) :
    updFd ((fd, i) :: rest) fd f = (fd, f i) :: rest := by
  simp [updFd]

theorem findFd_lt_aux (l : List (Int × SocketInfo)) (bound : Int) :
    (∀ p ∈ l, p.1 < bound) → ∀ fd info, findFd l fd = some info → fd < bound := by
  induction l with
  | nil => intro _ fd info h; simp [findFd] at h
  | cons hd tl ih =>
    intro hb fd info h
    obtain ⟨hfd, hinfo⟩ := hd
    simp only [findFd] at h
    by_cases he : hfd = fd
    · subst he
      exact hb ⟨hfd, hinfo⟩ (List.mem_cons_self _ _)
    · rw [if_neg he] at h
      exact ih (fun p hp => hb p (List.mem_cons_of_mem _ hp)) fd info h

theorem findFd_lt_of_WF {st : OsState} (hwf : st.WF) {fd : Int} {info : SocketInfo}
    (h : findFd st.fds fd = some info) : fd < st.nextFd :=
  findFd_lt_aux st.fds st.nextFd hwf fd info h

theorem check_inapplicable_error_name {α : Type} {o : Option α} {nm : String}
    {e : OpenSocketError} (h : check_inapplicable o nm = .error e) :
    e = .inapplicableUserOption nm := by
  unfold check_inapplicable at h
  split at h
  · injection h with h2
    exact h2.symm
  · cases h

theorem check_inapplicable_bool_error_name {o : Bool} {nm : String}
    {e : OpenSocketError} (h : check_inapplicable_bool o nm = .error e) :
    e = .inapplicableUserOption nm := by
  unfold check_inapplicable_bool at h
  split at h
  · injection h with h2
    exact h2.symm
  · cases h

theorem check_inapplicable_ok {α : Type} {o : Option α} {nm : String}
    (h : check_inapplicable o nm = .ok ()) : o = none := by
  unfold check_inapplicable at h
  split at h
  · cases h
  · rename_i hn
    cases o with
    | none => rfl
    | some a => simp at hn

theorem check_inapplicable_bool_ok {o : Bool} {nm : String}
    (h : check_inapplicable_bool o nm = .ok ()) : o = false := by
  unfold check_inapplicable_bool at h
  split at h
  · cases h
  · rename_i hn
    simpa using hn

/-- The error outcomes the `inherit` closure can produce: an inapplicable
option, a failed duplication, a type mismatch, or a listening-state
mismatch — and the two listening errors only on a platform with the
listening-state query. -/
theorem inheritSocket_error_cases (plat : Platform) (app : SocketAppOptions)
    (user : SocketUserOptions) (socket : Int) (st : OsState) (e : OpenSocketError)
    (h : (inheritSocket plat app user socket st).1 = .error e) :
    (∃ nm, e = .inapplicableUserOption nm) ∨ e = .dupInherited ∨
    (∃ x y, e = .inheritWrongType x y) ∨
    (plat.supportsIsListener = true ∧
      (e = .inheritedIsNotListening ∨ e = .inheritedIsListening)) := by
  unfold inheritSocket at h
  split at h
  · rename_i e1 heq
    have h2 : Except.error (ε := OpenSocketError) (α := Int) e1 = Except.error e := h
    injection h2 with h3
    exact .inl ⟨_, h3 ▸ check_inapplicable_error_name heq⟩
  split at h
  · rename_i e1 heq
    have h2 : Except.error (ε := OpenSocketError) (α := Int) e1 = Except.error e := h
    injection h2 with h3
    exact .inl ⟨_, h3 ▸ check_inapplicable_error_name heq⟩
  split at h
  · rename_i e1 heq
    have h2 : Except.error (ε := OpenSocketError) (α := Int) e1 = Except.error e := h
    injection h2 with h3
    exact .inl ⟨_, h3 ▸ check_inapplicable_error_name heq⟩
  split at h
  · rename_i e1 heq
    have h2 : Except.error (ε := OpenSocketError) (α := Int) e1 = Except.error e := h
    injection h2 with h3
    exact .inl ⟨_, h3 ▸ check_inapplicable_bool_error_name heq⟩
  split at h
  · rename_i e1 heq
    have h2 : Except.error (ε := OpenSocketError) (α := Int) e1 = Except.error e := h
    injection h2 with h3
    exact .inl ⟨_, h3 ▸ check_inapplicable_bool_error_name heq⟩
  split at h
  · rename_i e1 heq
    have h2 : Except.error (ε := OpenSocketError) (α := Int) e1 = Except.error e := h
    injection h2 with h3
    exact .inl ⟨_, h3 ▸ check_inapplicable_error_name heq⟩
  split at h
  · -- `findFd` returned `none`: duplication failed
    have h2 : Except.error (ε := OpenSocketError) (α := Int) .dupInherited =
        Except.error e := h
    injection h2 with h3
    exact .inr (.inl h3.symm)
  · rename_i info heq
    by_cases ht : info.sockType ≠ app.type
    · rw [if_pos ht] at h
      have h2 : Except.error (ε := OpenSocketError) (α := Int)
          (.inheritWrongType app.type info.sockType) = Except.error e := h
      injection h2 with h3
      exact .inr (.inr (.inl ⟨_, _, h3.symm⟩))
    · rw [if_neg ht] at h
      by_cases hp : plat.supportsIsListener = true ∧ info.sockType = STREAM
      · rw [if_pos hp] at h
        by_cases hl : app.listen ≠ info.listening
        · rw [if_pos hl] at h
          have h2 : Except.error (ε := OpenSocketError) (α := Int)
              (if app.listen = true then OpenSocketError.inheritedIsNotListening
               else OpenSocketError.inheritedIsListening) = Except.error e := h
          injection h2 with h3
          refine .inr (.inr (.inr ⟨hp.1, ?_⟩))
          by_cases hal : app.listen = true
          · rw [if_pos hal] at h3
            exact .inl h3.symm
          · rw [if_neg hal] at h3
            exact .inr h3.symm
        · rw [if_neg hl] at h
          exact Except.noConfusion h
      · rw [if_neg hp] at h
        exact Except.noConfusion h

theorem inheritSocket_ne_already (plat : Platform) (app : SocketAppOptions)
    (user : SocketUserOptions) (socket : Int) (st : OsState) :
    (inheritSocket plat app user socket st).1 ≠ .error .alreadyInherited := by
  intro h
  rcases inheritSocket_error_cases plat app user socket st _ h with
    ⟨nm, hnm⟩ | h2 | ⟨x, y, hxy⟩ | ⟨-, h2 | h2⟩
  · cases hnm
  · cases h2
  · cases hxy
  · cases h2
  · cases h2

theorem prepare_error_name {user : SocketUserOptions} {p : Option String}
    {e : OpenSocketError} (h : prepare user p = .error e) :
    ∃ nm, e = .inapplicableUserOption nm := by
  unfold prepare at h
  split at h
  · cases h
  · split at h
    · rename_i e1 heq
      injection h with h2
      exact ⟨_, h2 ▸ check_inapplicable_error_name heq⟩
    · split at h
      · rename_i e1 heq
        injection h with h2
        exact ⟨_, h2 ▸ check_inapplicable_error_name heq⟩
      · exact ⟨_, check_inapplicable_error_name h⟩

theorem cleanupStage_error_cases {user : SocketUserOptions} {upath : Option String}
    {fs : List (String × FileKind)} {e : OpenSocketError}
    (h : cleanupStage user upath fs = .error e) : ∃ ce, e = .cleanup ce := by
  unfold cleanupStage at h
  split at h
  · split at h
    · cases h
    · split at h
      · injection h with h2
        exact ⟨_, h2.symm⟩
      · cases h
  · cases h

theorem beforeBindCheck_error_cases {app : SocketAppOptions} {e : OpenSocketError}
    (h : beforeBindCheck app = .error e) : e = .beforeBind := by
  unfold beforeBindCheck at h
  split at h
  · injection h with h2
    exact h2.symm
  · cases h

theorem listenStage_fst (lb : Option Int) (st : OsState) (fd : Int) :
    (listenStage lb st fd).1 = .ok fd := by
  unfold listenStage
  split <;> rfl

/-- The error outcomes of the configure stage: a cleanup failure or a
`before_bind` hook failure. -/
theorem openNewConfigure_error_cases (app : SocketAppOptions) (user : SocketUserOptions)
    (upath : Option String) (address : ResolvedSockAddr) (lb : Option Int)
    (st1 : OsState) (fd : Int) (e : OpenSocketError)
    (h : (openNewConfigure app user upath address lb st1 fd).1 = .error e) :
    (∃ ce, e = .cleanup ce) ∨ e = .beforeBind := by
  unfold openNewConfigure at h
  split at h
  · rename_i e1 heq
    have h2 : Except.error (ε := OpenSocketError) (α := Int) e1 = Except.error e := h
    injection h2 with h3
    exact .inl (h3 ▸ cleanupStage_error_cases heq)
  · split at h
    · rename_i e1 heq
      have h2 : Except.error (ε := OpenSocketError) (α := Int) e1 = Except.error e := h
      injection h2 with h3
      exact .inr (h3 ▸ beforeBindCheck_error_cases heq)
    · split at h
      · rename_i e1 heq
        unfold unix_security_apply at heq
        cases heq
      · rw [listenStage_fst] at h
        cases h

/-- The error outcomes the model `open_new` path can produce: an
inapplicable option (from `prepare` or the backlog check), a cleanup error,
or a `before_bind` hook error. -/
theorem computeListenBacklog_error_cases {app : SocketAppOptions}
    {user : SocketUserOptions} {e : OpenSocketError}
    (h : computeListenBacklog app user = .error e) :
    e = .inapplicableUserOption "listen_socket_backlog" := by
  unfold computeListenBacklog at h
  split at h
  · cases h
  · split at h
    · rename_i e1 heq
      injection h with h2
      exact h2 ▸ check_inapplicable_error_name heq
    · cases h

theorem openNew_error_cases (app : SocketAppOptions) (user : SocketUserOptions)
    (orig : SocketAddr) (address : ResolvedSockAddr) (st : OsState) (e : OpenSocketError)
    (h : (openNew app user orig address st).1 = .error e) :
    (∃ nm, e = .inapplicableUserOption nm) ∨ (∃ ce, e = .cleanup ce) ∨
    e = .beforeBind := by
  unfold openNew at h
  split at h
  · rename_i e1 heq
    have h2 : Except.error (ε := OpenSocketError) (α := Int) e1 = Except.error e := h
    injection h2 with h3
    exact .inl (h3 ▸ prepare_error_name heq)
  split at h
  · rename_i e1 heq
    have h2 : Except.error (ε := OpenSocketError) (α := Int) e1 = Except.error e := h
    injection h2 with h3
    exact .inl ⟨_, h3 ▸ computeListenBacklog_error_cases heq⟩
  · exact (.inr (openNewConfigure_error_cases app user _ address _ _ _ e h))

theorem openNew_ne_already (app : SocketAppOptions) (user : SocketUserOptions)
    (orig : SocketAddr) (address : ResolvedSockAddr) (st : OsState) :
    (openNew app user orig address st).1 ≠ .error .alreadyInherited := by
  intro h
  rcases openNew_error_cases app user orig address st _ h with
    ⟨nm, hnm⟩ | ⟨ce, hce⟩ | h2
  · cases hnm
  · cases hce
  · cases h2

/-- Claim C10: no execution path of `open` constructs the declared
`AlreadyInherited` error — repeated claims of the same inherited descriptor
go through duplication, so the variant is unreachable from `open`. -/
theorem open_never_already_inherited (plat : Platform) (sdEnd : Option Int)
    (address : SocketAddr) (app : SocketAppOptions) (user : SocketUserOptions)
    (st : OsState) :
    (openSocket plat sdEnd address app user st).1 ≠ .error .alreadyInherited := by
  unfold openSocket
  cases address with
  | ip addr port =>
    cases hp : port.or app.default_port with
    | none => simp [hp]
    | some p =>
      simp only [hp]
      exact openNew_ne_already app user _ _ st
  | unix path => simpa using openNew_ne_already app user _ _ st
  | inherit socket => simpa using inheritSocket_ne_already plat app user socket st
  | inheritStdin => simpa using inheritSocket_ne_already plat app user 0 st
  | systemdNumeric socket =>
    by_cases hg : sdGuard sdEnd socket = true
    · simpa [hg] using inheritSocket_ne_already plat app user socket st
    · simp [hg]

/-- Claim C1 (code bug): with no activation window at all (`LISTEN_PID` and
`LISTEN_FDS` unset, so the cached `SD_LISTEN_FDS_END` is `none`), opening
`systemd:1000` must, per the claim and the crate's own `SystemdNumeric`
documentation, fail with `InvalidSystemdFd` and claim nothing; instead the
guard `socket >= SD_LISTEN_FDS_START || SD_LISTEN_FDS_END.is_some_and(..)`
accepts every descriptor at least 3 through its first disjunct, and `open`
duplicates and returns descriptor 1000. -/
theorem systemd_window_check_bypassed :
    sdListenFdsEnd none 4242 none = none ∧
    sdGuard none 1000 = true ∧
    (openSocket ⟨true⟩ none (.systemdNumeric 1000) (SocketAppOptions.new STREAM)
        SocketUserOptions.defaults
        ⟨[(1000, ⟨STREAM, true, none, false, false, false, none⟩)], 1001, []⟩).1 =
      .ok 1001 := by
  refine ⟨rfl, by decide, by decide⟩

/-- Claim C9: `cleanup` acts only on the `Unix` variant and is tolerant —
any other variant returns success with the file system untouched; an absent
path succeeds; a non-socket file at the path is left in place; a
Unix-domain socket at the path is deleted. -/
theorem cleanup_tolerant (addr : SocketAddr) (path : String)
    (fs : List (String × FileKind)) :
    ((∀ q, addr ≠ .unix q) → addr.cleanup fs = .ok fs) ∧
    (lookupFs fs path = none → SocketAddr.cleanup (.unix path) fs = .ok fs) ∧
    (lookupFs fs path = some .regular → SocketAddr.cleanup (.unix path) fs = .ok fs) ∧
    (lookupFs fs path = some .unixSocket →
      SocketAddr.cleanup (.unix path) fs = .ok (eraseFs fs path)) := by
  refine ⟨?_, ?_, ?_, ?_⟩
  · intro hnu
    cases addr with
    | unix q => exact absurd rfl (hnu q)
    | ip a p => rfl
    | inherit n => rfl
    | inheritStdin => rfl
    | systemdNumeric n => rfl
  · intro h
    simp [SocketAddr.cleanup, cleanup_unix_path_socket, h]
  · intro h
    simp [SocketAddr.cleanup, cleanup_unix_path_socket, h]
  · intro h
    simp [SocketAddr.cleanup, cleanup_unix_path_socket, h]

/-- Concrete instance of `cleanup_tolerant`: a non-Unix variant leaves a
socket file in place, and cleaning a path holding a socket deletes exactly
that file. -/
theorem cleanup_tolerant_witness :
    (SocketAddr.inherit 3).cleanup [("/p", FileKind.unixSocket)] =
      .ok [("/p", FileKind.unixSocket)] ∧
    SocketAddr.cleanup (.unix "/p") [("/p", FileKind.unixSocket)] = .ok [] := by
  constructor
  · exact (cleanup_tolerant (.inherit 3) "/p" [("/p", FileKind.unixSocket)]).1
      (fun q h => by cases h)
  · have h := (cleanup_tolerant (.unix "/p") "/p" [("/p", FileKind.unixSocket)]).2.2.2
      (by decide)
    simpa using h

end SocketConfig

namespace SocketConfig

/-- Shape of a successful run of the `inherit` closure: every inapplicable
option was unset, the original descriptor was found in the table, its type
matched, the result is a freshly allocated descriptor carrying the same
socket state, the original table is intact underneath, and on a platform
with the listening-state query a stream socket's listening state matched
the `listen` option. -/
theorem inheritSocket_ok_shape {plat : Platform} {app : SocketAppOptions}
    {user : SocketUserOptions} {socket : Int} {st : OsState} {s : Int} {st' : OsState}
    (h : inheritSocket plat app user socket st = (.ok s, st')) :
    user.unix_socket_permissions = none ∧ user.unix_socket_owner = none ∧
    user.unix_socket_group = none ∧ user.ip_socket_reuse_port = false ∧
    user.ip_socket_v6_only = false ∧ user.listen_socket_backlog = none ∧
    ∃ info, findFd st.fds socket = some info ∧ info.sockType = app.type ∧
      s = st.nextFd ∧ st' = ⟨(st.nextFd, info) :: st.fds, st.nextFd + 1, st.fs⟩ ∧
      (plat.supportsIsListener = true ∧ app.type = STREAM →
        app.listen = info.listening) := by
  unfold inheritSocket at h
  split at h
  · simp at h
  split at h
  · simp at h
  split at h
  · simp at h
  split at h
  · simp at h
  split at h
  · simp at h
  split at h
  · simp at h
  rename_i u1 hperm u2 howner u3 hgroup u4 hrp u5 hv6 u6 hbl
  refine ⟨check_inapplicable_ok hperm, check_inapplicable_ok howner,
    check_inapplicable_ok hgroup, check_inapplicable_bool_ok hrp,
    check_inapplicable_bool_ok hv6, check_inapplicable_ok hbl, ?_⟩
  split at h
  · simp at h
  rename_i info hfind
  by_cases ht : info.sockType ≠ app.type
  · rw [if_pos ht] at h
    simp at h
  · rw [if_neg ht] at h
    push_neg at ht
    by_cases hp : plat.supportsIsListener = true ∧ info.sockType = STREAM
    · rw [if_pos hp] at h
      by_cases hl : app.listen ≠ info.listening
      · rw [if_pos hl] at h
        simp at h
      · rw [if_neg hl] at h
        push_neg at hl
        have h2 : (Except.ok (ε := OpenSocketError) st.nextFd,
            (⟨(st.nextFd, info) :: st.fds, st.nextFd + 1, st.fs⟩ : OsState)) =
            (Except.ok s, st') := h
        obtain ⟨ha, hb⟩ := Prod.mk.injEq .. ▸ h2
        injection ha with ha
        exact ⟨info, hfind, ht, ha.symm, hb.symm, fun _ => hl⟩
    · rw [if_neg hp] at h
      have h2 : (Except.ok (ε := OpenSocketError) st.nextFd,
          (⟨(st.nextFd, info) :: st.fds, st.nextFd + 1, st.fs⟩ : OsState)) =
          (Except.ok s, st') := h
      obtain ⟨ha, hb⟩ := Prod.mk.injEq .. ▸ h2
      injection ha with ha
      refine ⟨info, hfind, ht, ha.symm, hb.symm, fun hcond => absurd ⟨hcond.1, ?_⟩ hp⟩
      rw [ht]
      exact hcond.2

/-- A successful `inherit` leaves every pre-existing descriptor-table entry
intact, preserves well-formedness, and can be run again successfully on the
resulting state. -/
theorem inheritSocket_reopen {plat : Platform} {app : SocketAppOptions}
    {user : SocketUserOptions} {socket : Int} {st : OsState} {s : Int} {st' : OsState}
    (hwf : st.WF) (hok : inheritSocket plat app user socket st = (.ok s, st')) :
    (∀ fd info, findFd st.fds fd = some info → findFd st'.fds fd = some info) ∧
    st'.WF ∧
    (∃ s2 st2, inheritSocket plat app user socket st' = (.ok s2, st2)) := by
  obtain ⟨hperm, howner, hgroup, hrp, hv6, hbl, info, hfind, htype, hs, hst, hlst⟩ :=
    inheritSocket_ok_shape hok
  subst hst
  have hpres : ∀ fd i, findFd st.fds fd = some i →
      findFd ((st.nextFd, info) :: st.fds) fd = some i := by
    intro fd i hf
    have hlt := findFd_lt_of_WF hwf hf
    simp only [findFd]
    rw [if_neg (by omega)]
    exact hf
  refine ⟨fun fd i hf => hpres fd i hf, ?_, ?_⟩
  · intro p hp
    rcases List.mem_cons.mp hp with hp | hp
    · subst hp
      simp
    · have := hwf p hp
      simp only []
      omega
  · have hfind' : findFd ((st.nextFd, info) :: st.fds) socket = some info :=
      hpres socket info hfind
    unfold inheritSocket
    simp only [check_inapplicable, check_inapplicable_bool, hperm, howner, hgroup,
      hrp, hv6, hbl, Option.isSome_none, Bool.false_eq_true, if_false, hfind', htype]
    rw [if_neg (by simp)]
    by_cases hp : plat.supportsIsListener = true ∧ app.type = STREAM
    · rw [if_pos hp]
      rw [if_neg (by simp [hlst hp])]
      exact ⟨_, _, rfl⟩
    · rw [if_neg hp]
      exact ⟨_, _, rfl⟩

/-- Claim C2: every inherited-variant `open` duplicates the descriptor and
never closes or otherwise disturbs any original descriptor — every
pre-existing descriptor-table entry survives a successful `open`
unchanged — and a second `open` on the same address value in the resulting
state succeeds again. -/
theorem open_inherited_duplicates_and_reopens (plat : Platform) (sdEnd : Option Int)
    (address : SocketAddr) (app : SocketAppOptions) (user : SocketUserOptions)
    (st : OsState) (s : Int) (st' : OsState)
    (hwf : st.WF) (hinh : address.is_inherited = true)
    (hok : openSocket plat sdEnd address app user st = (.ok s, st')) :
    (∀ fd info, findFd st.fds fd = some info → findFd st'.fds fd = some info) ∧
    (∃ s2 st2, openSocket plat sdEnd address app user st' = (.ok s2, st2)) := by
  cases address with
  | ip a p => simp [SocketAddr.is_inherited] at hinh
  | unix q => simp [SocketAddr.is_inherited] at hinh
  | inherit socket =>
    have hok' : inheritSocket plat app user socket st = (.ok s, st') := hok
    obtain ⟨hpres, hwf', s2, st2, hre⟩ := inheritSocket_reopen hwf hok'
    exact ⟨hpres, s2, st2, hre⟩
  | inheritStdin =>
    have hok' : inheritSocket plat app user 0 st = (.ok s, st') := hok
    obtain ⟨hpres, hwf', s2, st2, hre⟩ := inheritSocket_reopen hwf hok'
    exact ⟨hpres, s2, st2, hre⟩
  | systemdNumeric socket =>
    by_cases hg : sdGuard sdEnd socket = true
    · simp only [openSocket, if_pos hg] at hok
      obtain ⟨hpres, hwf', s2, st2, hre⟩ := inheritSocket_reopen hwf hok
      refine ⟨hpres, s2, st2, ?_⟩
      simp only [openSocket, if_pos hg]
      exact hre
    · simp only [openSocket, if_neg hg] at hok
      simp at hok

/-- Concrete instance of `open_inherited_duplicates_and_reopens`: claiming
inherited descriptor 5 twice in a row succeeds. -/
theorem open_inherited_duplicates_and_reopens_witness :
    ∃ s2 st2,
      openSocket ⟨true⟩ none (.inherit 5) (SocketAppOptions.new STREAM)
        SocketUserOptions.defaults
        (openSocket ⟨true⟩ none (.inherit 5) (SocketAppOptions.new STREAM)
          SocketUserOptions.defaults
          ⟨[(5, ⟨STREAM, true, none, false, false, false, none⟩)], 6, []⟩).2 =
        (.ok s2, st2) :=
  (open_inherited_duplicates_and_reopens ⟨true⟩ none (.inherit 5)
    (SocketAppOptions.new STREAM) SocketUserOptions.defaults
    ⟨[(5, ⟨STREAM, true, none, false, false, false, none⟩)], 6, []⟩ 6
    ⟨[(6, ⟨STREAM, true, none, false, false, false, none⟩),
      (5, ⟨STREAM, true, none, false, false, false, none⟩)], 7, []⟩
    (by decide) (by decide) (by decide)).2

end SocketConfig

namespace SocketConfig

/-- With any inapplicable-for-inherited option set, the `inherit` closure
fails with `InapplicableUserOption` naming a set option, before touching
the OS state. -/
theorem inheritSocket_rejects_inapplicable (plat : Platform) (app : SocketAppOptions)
    (user : SocketUserOptions) (socket : Int) (st : OsState)
    (hne : inheritInapplicableSet user ≠ []) :
    ∃ nm, nm ∈ inheritInapplicableSet user ∧
      inheritSocket plat app user socket st = (.error (.inapplicableUserOption nm), st) := by
  by_cases h1 : user.unix_socket_permissions.isSome = true
  · exact ⟨"unix_socket_permissions", by simp [inheritInapplicableSet, h1],
      by simp [inheritSocket, check_inapplicable, h1]⟩
  by_cases h2 : user.unix_socket_owner.isSome = true
  · exact ⟨"unix_socket_owner", by simp [inheritInapplicableSet, h1, h2],
      by simp [inheritSocket, check_inapplicable, h1, h2]⟩
  by_cases h3 : user.unix_socket_group.isSome = true
  · exact ⟨"unix_socket_group", by simp [inheritInapplicableSet, h1, h2, h3],
      by simp [inheritSocket, check_inapplicable, h1, h2, h3]⟩
  by_cases h4 : user.ip_socket_reuse_port = true
  · exact ⟨"ip_socket_reuse_port", by simp [inheritInapplicableSet, h1, h2, h3, h4],
      by simp [inheritSocket, check_inapplicable, check_inapplicable_bool, h1, h2, h3, h4]⟩
  by_cases h5 : user.ip_socket_v6_only = true
  · exact ⟨"ip_socket_v6_only", by simp [inheritInapplicableSet, h1, h2, h3, h4, h5],
      by simp [inheritSocket, check_inapplicable, check_inapplicable_bool, h1, h2, h3, h4, h5]⟩
  by_cases h6 : user.listen_socket_backlog.isSome = true
  · exact ⟨"listen_socket_backlog", by simp [inheritInapplicableSet, h1, h2, h3, h4, h5, h6],
      by simp [inheritSocket, check_inapplicable, check_inapplicable_bool, h1, h2, h3, h4, h5, h6]⟩
  · exact absurd (by simp [inheritInapplicableSet, h1, h2, h3, h4, h5, h6]) hne

/-- With any path-only security option set and no socket path,
`unix_security::prepare` fails with `InapplicableUserOption` naming a set
option. -/
theorem prepare_rejects_inapplicable (user : SocketUserOptions)
    (hne : pathOnlyOptionSet user ≠ []) :
    ∃ nm, nm ∈ pathOnlyOptionSet user ∧
      prepare user none = .error (.inapplicableUserOption nm) := by
  by_cases h1 : user.unix_socket_permissions.isSome = true
  · exact ⟨"unix_socket_permissions", by simp [pathOnlyOptionSet, h1],
      by simp [prepare, check_inapplicable, h1]⟩
  by_cases h2 : user.unix_socket_owner.isSome = true
  · exact ⟨"unix_socket_owner", by simp [pathOnlyOptionSet, h1, h2],
      by simp [prepare, check_inapplicable, h1, h2]⟩
  by_cases h3 : user.unix_socket_group.isSome = true
  · exact ⟨"unix_socket_group", by simp [pathOnlyOptionSet, h1, h2, h3],
      by simp [prepare, check_inapplicable, h1, h2, h3]⟩
  · exact absurd (by simp [pathOnlyOptionSet, h1, h2, h3]) hne

/-- Claim C4: for every inapplicable (option, endpoint-kind) pair, `open`
fails with `InapplicableUserOption` carrying the name of a set option from
that pair family, and the OS state is returned exactly as it was — no
socket is created, bound, or duplicated.  The first conjunct covers every
inherited endpoint that reaches the inherit path (for `SystemdNumeric`,
one whose descriptor passes the activation guard, since per spec §4.2 the
slot validation of step 1 precedes the option checks of step 2) and all six
options inapplicable to inherited sockets; the second covers the three
path-only security options on a non-path (IP) endpoint whose port
resolves. -/
theorem open_inapplicable_rejected_before_mutation (plat : Platform) (sdEnd : Option Int)
    (address : SocketAddr) (app : SocketAppOptions) (user : SocketUserOptions)
    (st : OsState) :
    (address.is_inherited = true →
      (∀ n, address = .systemdNumeric n → sdGuard sdEnd n = true) →
      inheritInapplicableSet user ≠ [] →
      ∃ nm, nm ∈ inheritInapplicableSet user ∧
        openSocket plat sdEnd address app user st =
          (.error (.inapplicableUserOption nm), st)) ∧
    (∀ a p, address = .ip a p →
      (p.or app.default_port).isSome = true →
      pathOnlyOptionSet user ≠ [] →
      ∃ nm, nm ∈ pathOnlyOptionSet user ∧
        openSocket plat sdEnd address app user st =
          (.error (.inapplicableUserOption nm), st)) := by
  constructor
  · intro hinh hguard hne
    cases address with
    | ip a p => simp [SocketAddr.is_inherited] at hinh
    | unix q => simp [SocketAddr.is_inherited] at hinh
    | inherit socket =>
      obtain ⟨nm, hmem, heq⟩ := inheritSocket_rejects_inapplicable plat app user socket st hne
      exact ⟨nm, hmem, heq⟩
    | inheritStdin =>
      obtain ⟨nm, hmem, heq⟩ := inheritSocket_rejects_inapplicable plat app user 0 st hne
      exact ⟨nm, hmem, heq⟩
    | systemdNumeric socket =>
      obtain ⟨nm, hmem, heq⟩ := inheritSocket_rejects_inapplicable plat app user socket st hne
      refine ⟨nm, hmem, ?_⟩
      simp only [openSocket, if_pos (hguard socket rfl)]
      exact heq
  · intro a p haddr hport hne
    subst haddr
    obtain ⟨nm, hmem, hprep⟩ := prepare_rejects_inapplicable user hne
    cases hp : p.or app.default_port with
    | none => rw [hp] at hport; simp at hport
    | some prt =>
      refine ⟨nm, hmem, ?_⟩
      simp only [openSocket, hp]
      simp only [openNew, SocketAddr.unixPathOf, hprep]

end SocketConfig

namespace SocketConfig

theorem findFd_updFd_same (l : List (Int × SocketInfo)) (fd : Int)
    (f : SocketInfo → SocketInfo) :
    findFd (updFd l fd f) fd = (findFd l fd).map f := by
  induction l with
  | nil => simp [findFd, updFd]
  | cons hd tl ih =>
    obtain ⟨k, i⟩ := hd
    by_cases hk : k = fd
    · subst hk
      simp [findFd, updFd]
    · simp [findFd, updFd, hk, ih]

/-- The socket-option stage only changes the option flags of the socket:
its type, listening state, bound address, and listen record survive. -/
theorem findFd_applySockOpts (app : SocketAppOptions) (user : SocketUserOptions)
    (address : ResolvedSockAddr) (lb : Option Int) (st : OsState) (fd : Int)
    (i : SocketInfo) (h : findFd st.fds fd = some i) :
    ∃ i', findFd (applySockOpts app user address lb st fd).fds fd = some i' ∧
      i'.sockType = i.sockType ∧ i'.listening = i.listening ∧
      i'.boundTo = i.boundTo ∧ i'.listenedWith = i.listenedWith := by
  unfold applySockOpts
  by_cases hc1 : lb.isSome = true ∧ is_socket_probably_tcp app address = true <;>
    by_cases hc2 : user.ip_socket_reuse_port = true <;>
    by_cases hc3 : user.ip_socket_v6_only = true <;>
    simp [hc1, hc2, hc3, OsState.updSocket, findFd_updFd_same, h]

/-- Binding records the bound address on the socket and touches nothing
else in the descriptor table. -/
theorem findFd_bindState (address : ResolvedSockAddr) (st : OsState) (fd : Int)
    (i : SocketInfo) (h : findFd st.fds fd = some i) :
    findFd (bindState address st fd).fds fd =
      some { i with boundTo := some address } := by
  unfold bindState
  cases address <;> simp [OsState.updSocket, OsState.setFs, findFd_updFd_same, h]

/-- The listen stage returns the socket and records exactly the computed
backlog (given the socket had no listen record before). -/
theorem listenStage_shape (lb : Option Int) (st : OsState) (fd : Int)
    (i : SocketInfo) (h : findFd st.fds fd = some i) (hlw : i.listenedWith = none) :
    (listenStage lb st fd).1 = .ok fd ∧
    ∃ i', findFd (listenStage lb st fd).2.fds fd = some i' ∧
      i'.sockType = i.sockType ∧ i'.boundTo = i.boundTo ∧
      i'.listenedWith = lb := by
  cases lb <;> simp [listenStage, OsState.updSocket, findFd_updFd_same, h, hlw]

theorem computeListenBacklog_ok_val {app : SocketAppOptions} {user : SocketUserOptions}
    {lb : Option Int} (h : computeListenBacklog app user = .ok lb) :
    lb = if app.listen = true ∧ app.type = STREAM then
      some (user.listen_socket_backlog.getD DEFAULT_LISTEN_SOCKET_BACKLOG)
    else none := by
  unfold computeListenBacklog at h
  split at h
  · rename_i hc
    injection h with h2
    rw [if_pos hc]
    exact h2.symm
  · rename_i hc
    split at h
    · cases h
    · injection h with h2
      rw [if_neg hc]
      exact h2.symm

/-- Shape of a successful run of the configure stage: the returned socket
is the created one, it is bound to the requested address, keeps its type,
and carries a listen record exactly equal to the computed backlog. -/
theorem openNewConfigure_ok_shape {app : SocketAppOptions} {user : SocketUserOptions}
    {upath : Option String} {address : ResolvedSockAddr} {lb : Option Int}
    {st1 : OsState} {fd : Int} {s : Int} {st' : OsState}
    (h : openNewConfigure app user upath address lb st1 fd = (.ok s, st'))
    (i0 : SocketInfo) (hfind : findFd st1.fds fd = some i0)
    (hlw : i0.listenedWith = none) :
    s = fd ∧ ∃ info, findFd st'.fds fd = some info ∧
      info.sockType = i0.sockType ∧ info.boundTo = some address ∧
      info.listenedWith = lb := by
  unfold openNewConfigure at h
  split at h
  · simp at h
  · rename_i fs2 hcl
    split at h
    · simp at h
    · split at h
      · rename_i e1 hsec
        unfold unix_security_apply at hsec
        cases hsec
      · obtain ⟨i1, hf1, hty1, hlis1, hbt1, hlw1⟩ :=
          findFd_applySockOpts app user address lb (st1.setFs fs2) fd i0 hfind
        have hf2 := findFd_bindState address _ fd i1 hf1
        obtain ⟨hfst, i2, hf3, hty2, hbt2, hlw2⟩ :=
          listenStage_shape lb _ fd _ hf2 (by simp [hlw1, hlw])
        rw [h] at hfst hf3
        injection hfst with hfst
        refine ⟨hfst, i2, hf3, ?_, ?_, hlw2⟩
        · simpa [hty1] using hty2
        · simpa using hbt2

/-- Shape of a successful `open_new`: the result is the freshly created
socket, bound to the resolved address, of the requested type, with a
listen record present — holding the user backlog or the default — exactly
when the application requested a listening stream socket. -/
theorem openNew_ok_shape {app : SocketAppOptions} {user : SocketUserOptions}
    {orig : SocketAddr} {address : ResolvedSockAddr} {st : OsState}
    {s : Int} {st' : OsState}
    (h : openNew app user orig address st = (.ok s, st')) :
    s = st.nextFd ∧
    ∃ info, findFd st'.fds s = some info ∧ info.sockType = app.type ∧
      info.boundTo = some address ∧
      info.listenedWith = (if app.listen = true ∧ app.type = STREAM then
        some (user.listen_socket_backlog.getD DEFAULT_LISTEN_SOCKET_BACKLOG)
      else none) := by
  unfold openNew at h
  split at h
  · simp at h
  split at h
  · simp at h
  · rename_i lb hlb
    have hshape := openNewConfigure_ok_shape h (mkSocketInfo app.type)
      (by simp [OsState.alloc, findFd]) (by simp [mkSocketInfo])
    obtain ⟨hs, info, hfind, hty, hbt, hlw⟩ := hshape
    have hsfd : s = st.nextFd := by simpa [OsState.alloc] using hs
    refine ⟨hsfd, info, ?_, by simpa [mkSocketInfo] using hty, hbt, ?_⟩
    · rw [hsfd]
      exact hfind
    · rw [hlw, computeListenBacklog_ok_val hlb]

/-- When the application did not request a listening stream socket but the
user set an explicit backlog, the backlog computation rejects it. -/
theorem computeListenBacklog_inapplicable {app : SocketAppOptions}
    {user : SocketUserOptions} (hc : ¬(app.listen = true ∧ app.type = STREAM))
    (hset : user.listen_socket_backlog.isSome = true) :
    computeListenBacklog app user =
      .error (.inapplicableUserOption "listen_socket_backlog") := by
  simp [computeListenBacklog, hc, check_inapplicable, hset]

/-- Claim C5: in the create-new path (past the `prepare` check), the listen
backlog is the user-supplied value or the platform default exactly when the
application wants a listening stream socket; if not, an explicitly set
`listen_socket_backlog` makes `open` fail with
`InapplicableUserOption("listen_socket_backlog")` before any socket is
created; and on success the socket's `listen` record equals the computed
backlog — `listen` was called exactly when the backlog was present, with
that value. -/
theorem openNew_listen_backlog_policy (app : SocketAppOptions)
    (user : SocketUserOptions) (orig : SocketAddr) (address : ResolvedSockAddr)
    (st : OsState) (hprep : prepare user orig.unixPathOf = .ok ()) :
    (¬(app.listen = true ∧ app.type = STREAM) →
      user.listen_socket_backlog.isSome = true →
      openNew app user orig address st =
        (.error (.inapplicableUserOption "listen_socket_backlog"), st)) ∧
    (∀ s st', openNew app user orig address st = (.ok s, st') →
      ∃ info, findFd st'.fds s = some info ∧
        info.listenedWith = (if app.listen = true ∧ app.type = STREAM then
          some (user.listen_socket_backlog.getD DEFAULT_LISTEN_SOCKET_BACKLOG)
        else none)) := by
  constructor
  · intro hc hset
    simp only [openNew, hprep, computeListenBacklog_inapplicable hc hset]
  · intro s st' h
    obtain ⟨-, info, hfind, -, -, hlw⟩ := openNew_ok_shape h
    exact ⟨info, hfind, hlw⟩

/-- Concrete instance of `openNew_listen_backlog_policy`: a listening
stream socket opened with no explicit backlog records the platform default
backlog 128. -/
theorem openNew_listen_backlog_policy_witness :
    ∃ info,
      findFd (OsState.fds
        ⟨[(0, ⟨STREAM, true, some (.ip (.v4 127 0 0 1) 80), true, false, false,
            some 128⟩)], 1, []⟩) 0 = some info ∧
      info.listenedWith =
        (if (SocketAppOptions.new STREAM).listen = true ∧
            (SocketAppOptions.new STREAM).type = STREAM then
          some ((SocketUserOptions.defaults).listen_socket_backlog.getD
            DEFAULT_LISTEN_SOCKET_BACKLOG)
        else none) :=
  (openNew_listen_backlog_policy (SocketAppOptions.new STREAM)
    SocketUserOptions.defaults (.ip (.v4 127 0 0 1) (some 80))
    (.ip (.v4 127 0 0 1) 80) ⟨[], 0, []⟩ (by decide)).2 0
    ⟨[(0, ⟨STREAM, true, some (.ip (.v4 127 0 0 1) 80), true, false, false,
        some 128⟩)], 1, []⟩ (by decide)

end SocketConfig

namespace SocketConfig

/-- With no socket path and no `before_bind` hook, the configure stage
runs straight through to the listen stage. -/
theorem openNewConfigure_run_nopath (app : SocketAppOptions) (user : SocketUserOptions)
    (address : ResolvedSockAddr) (lb : Option Int) (st1 : OsState) (fd : Int)
    (hbb : app.before_bind = none) :
    openNewConfigure app user none address lb st1 fd =
      listenStage lb (bindState address
        (applySockOpts app user address lb (st1.setFs st1.fs) fd) fd) fd := by
  simp only [openNewConfigure, cleanupStage, beforeBindCheck, hbb, unix_security_apply]

/-- Opening a fresh IP socket with all user options unset and no
`before_bind` hook succeeds in the model. -/
theorem openNew_ip_defaults_ok (app : SocketAppOptions) (user : SocketUserOptions)
    (a : IpAddr) (p : Option Nat) (address : ResolvedSockAddr) (st : OsState)
    (huser : user = SocketUserOptions.defaults) (hbb : app.before_bind = none) :
    ∃ s st', openNew app user (.ip a p) address st = (.ok s, st') := by
  subst huser
  have hprep : prepare SocketUserOptions.defaults none = .ok () := by
    simp [prepare, check_inapplicable, SocketUserOptions.defaults]
  obtain ⟨lb, hlb⟩ : ∃ lb, computeListenBacklog app SocketUserOptions.defaults = .ok lb := by
    by_cases hc : app.listen = true ∧ app.type = STREAM
    · exact ⟨some (SocketUserOptions.defaults.listen_socket_backlog.getD
          DEFAULT_LISTEN_SOCKET_BACKLOG), by simp [computeListenBacklog, hc]⟩
    · exact ⟨none,
        by simp [computeListenBacklog, hc, check_inapplicable, SocketUserOptions.defaults]⟩
  have hrun : openNew app SocketUserOptions.defaults (.ip a p) address st =
      listenStage lb (bindState address
        (applySockOpts app SocketUserOptions.defaults address lb
          (((st.alloc (mkSocketInfo app.type)).1).setFs
            ((st.alloc (mkSocketInfo app.type)).1).fs)
          (st.alloc (mkSocketInfo app.type)).2)
        (st.alloc (mkSocketInfo app.type)).2)
      (st.alloc (mkSocketInfo app.type)).2 := by
    simp only [openNew, SocketAddr.unixPathOf, hprep, hlb,
      openNewConfigure_run_nopath app SocketUserOptions.defaults address lb _ _ hbb]
  cases hl : lb with
  | some b =>
    rw [hl] at hrun
    exact ⟨_, _, by rw [hrun]; rfl⟩
  | none =>
    rw [hl] at hrun
    exact ⟨_, _, by rw [hrun]; rfl⟩

/-- Claim C6: opening `SocketAddr::Ip` resolves the port against
`default_port` — an address without a port uses `default_port` when
present and binds to it, fails with `PortRequired` (state untouched) when
both are absent, and an explicit port is used regardless of
`default_port`. -/
theorem open_ip_port_resolution (plat : Platform) (sdEnd : Option Int) (a : IpAddr)
    (port : Option Nat) (app : SocketAppOptions) (user : SocketUserOptions)
    (st : OsState) :
    (port = none → app.default_port = none →
      openSocket plat sdEnd (.ip a port) app user st = (.error .portRequired, st)) ∧
    (∀ d, port = none → app.default_port = some d →
      user = SocketUserOptions.defaults → app.before_bind = none →
      ∃ s st' info, openSocket plat sdEnd (.ip a port) app user st = (.ok s, st') ∧
        findFd st'.fds s = some info ∧ info.boundTo = some (.ip a d)) ∧
    (∀ p s st', port = some p →
      openSocket plat sdEnd (.ip a port) app user st = (.ok s, st') →
      ∃ info, findFd st'.fds s = some info ∧ info.boundTo = some (.ip a p)) := by
  refine ⟨?_, ?_, ?_⟩
  · intro hp hd
    subst hp
    simp [openSocket, hd]
  · intro d hp hd huser hbb
    subst hp
    obtain ⟨s, st', hok⟩ := openNew_ip_defaults_ok app user a none (.ip a d) st huser hbb
    obtain ⟨-, info, hfind, -, hbt, -⟩ := openNew_ok_shape hok
    refine ⟨s, st', info, ?_, hfind, hbt⟩
    simp only [openSocket, Option.or, hd]
    exact hok
  · intro p s st' hp hok
    subst hp
    have hok' : openNew app user (.ip a (some p)) (.ip a p) st = (.ok s, st') := by
      simpa [openSocket, Option.or] using hok
    obtain ⟨-, info, hfind, -, hbt, -⟩ := openNew_ok_shape hok'
    exact ⟨info, hfind, hbt⟩

/-- Concrete instance of `open_ip_port_resolution`: no port anywhere means
`PortRequired` with the OS state unchanged. -/
theorem open_ip_port_resolution_witness :
    openSocket ⟨true⟩ none (.ip (.v4 127 0 0 1) none) (SocketAppOptions.new STREAM)
      SocketUserOptions.defaults ⟨[], 0, []⟩ =
      (.error .portRequired, (⟨[], 0, []⟩ : OsState)) :=
  (open_ip_port_resolution ⟨true⟩ none (.v4 127 0 0 1) none
    (SocketAppOptions.new STREAM) SocketUserOptions.defaults ⟨[], 0, []⟩).1 rfl rfl

/-- Concrete instance of `open_inapplicable_rejected_before_mutation`:
setting `ip_socket_v6_only` while claiming inherited descriptor 5 fails
with that option's name and leaves the state exactly as it was. -/
theorem open_inapplicable_rejected_before_mutation_witness :
    ∃ nm, nm ∈ inheritInapplicableSet
        ⟨false, none, none, none, false, true, none⟩ ∧
      openSocket ⟨true⟩ none (.inherit 5) (SocketAppOptions.new STREAM)
        ⟨false, none, none, none, false, true, none⟩
        ⟨[(5, ⟨STREAM, true, none, false, false, false, none⟩)], 6, []⟩ =
        (.error (.inapplicableUserOption nm),
         (⟨[(5, ⟨STREAM, true, none, false, false, false, none⟩)], 6, []⟩ : OsState)) :=
  (open_inapplicable_rejected_before_mutation ⟨true⟩ none (.inherit 5)
    (SocketAppOptions.new STREAM) ⟨false, none, none, none, false, true, none⟩
    ⟨[(5, ⟨STREAM, true, none, false, false, false, none⟩)], 6, []⟩).1
    (by decide) (fun n h => by cases h) (by decide)

end SocketConfig

namespace SocketConfig

/-- A listening-state mismatch error can only arise on a platform that
supports the listening-state query. -/
theorem openSocket_listening_error_requires_support (plat : Platform)
    (sdEnd : Option Int) (address : SocketAddr) (app : SocketAppOptions)
    (user : SocketUserOptions) (st : OsState) (e : OpenSocketError)
    (he : e = .inheritedIsNotListening ∨ e = .inheritedIsListening)
    (h : (openSocket plat sdEnd address app user st).1 = .error e) :
    plat.supportsIsListener = true := by
  have hnotnew : ∀ orig addr2, (openNew app user orig addr2 st).1 ≠ .error e := by
    intro orig addr2 hne
    rcases openNew_error_cases app user orig addr2 st e hne with
      ⟨nm, hnm⟩ | ⟨ce, hce⟩ | h2 <;> rcases he with he | he
    · rw [he] at hnm; cases hnm
    · rw [he] at hnm; cases hnm
    · rw [he] at hce; cases hce
    · rw [he] at hce; cases hce
    · rw [he] at h2; cases h2
    · rw [he] at h2; cases h2
  have hinh : ∀ socket, (inheritSocket plat app user socket st).1 = .error e →
      plat.supportsIsListener = true := by
    intro socket hie
    rcases inheritSocket_error_cases plat app user socket st e hie with
      ⟨nm, hnm⟩ | h2 | ⟨x, y, hxy⟩ | ⟨hsup, -⟩
    · rcases he with he | he <;> rw [he] at hnm <;> cases hnm
    · rcases he with he | he <;> rw [he] at h2 <;> cases h2
    · rcases he with he | he <;> rw [he] at hxy <;> cases hxy
    · exact hsup
  cases address with
  | ip a port =>
    cases hp : port.or app.default_port with
    | none =>
      simp only [openSocket, hp] at h
      rcases he with he | he <;> rw [he] at h <;> cases h
    | some p =>
      simp only [openSocket, hp] at h
      exact absurd h (hnotnew _ _)
  | unix path =>
    simp only [openSocket] at h
    exact absurd h (hnotnew _ _)
  | inherit socket =>
    exact hinh socket h
  | inheritStdin =>
    exact hinh 0 h
  | systemdNumeric socket =>
    by_cases hg : sdGuard sdEnd socket = true
    · simp only [openSocket, if_pos hg] at h
      exact hinh socket h
    · simp only [openSocket, if_neg hg] at h
      rcases he with he | he <;> rw [he] at h <;> cases h

/-- Claim C8: when `open` claims an inherited stream socket on a platform
that can query listening state, the duplicated socket's listening state is
compared with `app_options.listen` — `listen` wanted but socket not
listening gives `InheritedIsNotListening`, socket listening but `listen`
not wanted gives `InheritedIsListening`; on a platform without the query
neither error can arise from any call. -/
theorem inherited_listen_check_platform_gated (plat : Platform) (sdEnd : Option Int)
    (app : SocketAppOptions) (user : SocketUserOptions) (st : OsState)
    (fd : Int) (info : SocketInfo) :
    (plat.supportsIsListener = true → user = SocketUserOptions.defaults →
      findFd st.fds fd = some info → info.sockType = app.type →
      app.type = STREAM →
      ((app.listen = true → info.listening = false →
        (openSocket plat sdEnd (.inherit fd) app user st).1 =
          .error .inheritedIsNotListening) ∧
       (app.listen = false → info.listening = true →
        (openSocket plat sdEnd (.inherit fd) app user st).1 =
          .error .inheritedIsListening))) ∧
    (plat.supportsIsListener = false →
      ∀ address2 app2 user2 st2,
        (openSocket plat sdEnd address2 app2 user2 st2).1 ≠
          .error .inheritedIsNotListening ∧
        (openSocket plat sdEnd address2 app2 user2 st2).1 ≠
          .error .inheritedIsListening) := by
  constructor
  · intro hsup huser hfind htype hstream
    subst huser
    have hrun : ∀ hl : Bool, app.listen = hl → info.listening = (!hl) →
        (openSocket plat sdEnd (.inherit fd) app SocketUserOptions.defaults st).1 =
          .error (if hl then OpenSocketError.inheritedIsNotListening
                  else OpenSocketError.inheritedIsListening) := by
      intro hl hal hil
      have : (inheritSocket plat app SocketUserOptions.defaults fd st).1 =
          .error (if hl then OpenSocketError.inheritedIsNotListening
                  else OpenSocketError.inheritedIsListening) := by
        unfold inheritSocket
        simp only [check_inapplicable, check_inapplicable_bool,
          SocketUserOptions.defaults, Option.isSome_none, Bool.false_eq_true,
          if_false, hfind, htype]
        rw [if_neg (by simp)]
        rw [if_pos ⟨hsup, hstream⟩]
        rw [if_pos (by rw [hal, hil]; cases hl <;> simp)]
        rw [hal]
      exact this
    constructor
    · intro hal hil
      have := hrun true hal (by simpa using hil)
      simpa using this
    · intro hal hil
      have := hrun false hal (by simpa using hil)
      simpa using this
  · intro hsup address2 app2 user2 st2
    constructor
    · intro h
      have := openSocket_listening_error_requires_support plat sdEnd address2 app2
        user2 st2 _ (.inl rfl) h
      rw [hsup] at this
      cases this
    · intro h
      have := openSocket_listening_error_requires_support plat sdEnd address2 app2
        user2 st2 _ (.inr rfl) h
      rw [hsup] at this
      cases this

/-- Concrete instance of `inherited_listen_check_platform_gated`: claiming
a non-listening inherited stream descriptor while `listen` is wanted fails
with `InheritedIsNotListening`. -/
theorem inherited_listen_check_platform_gated_witness :
    (openSocket ⟨true⟩ none (.inherit 5) (SocketAppOptions.new STREAM)
      SocketUserOptions.defaults
      ⟨[(5, ⟨STREAM, false, none, false, false, false, none⟩)], 6, []⟩).1 =
      .error .inheritedIsNotListening :=
  ((inherited_listen_check_platform_gated ⟨true⟩ none (SocketAppOptions.new STREAM)
    SocketUserOptions.defaults
    ⟨[(5, ⟨STREAM, false, none, false, false, false, none⟩)], 6, []⟩ 5
    ⟨STREAM, false, none, false, false, false, none⟩).1 rfl rfl (by decide) rfl
    rfl).1 rfl rfl

end SocketConfig

namespace SocketConfig

theorem strData_append (a b : String) : (a ++ b).data = a.data ++ b.data := by
  cases a
  cases b
  rfl

theorem string_eq_iff_data {a b : String} : a = b ↔ a.data = b.data := by
  constructor
  · intro h
    rw [h]
  · intro h
    cases a
    cases b
    cases h
    rfl

theorem string_mk_data (s : String) : (⟨s.data⟩ : String) = s := by
  cases s
  rfl

theorem isPrefixOf_iff_exists (p l : List Char) :
    p.isPrefixOf l = true ↔ ∃ t, l = p ++ t := by
  induction p generalizing l with
  | nil => simp [List.isPrefixOf]
  | cons c cs ih =>
    cases l with
    | nil => simp [List.isPrefixOf]
    | cons b bs =>
      simp only [List.isPrefixOf, Bool.and_eq_true, beq_iff_eq, ih bs]
      constructor
      · rintro ⟨hcb, t, ht⟩
        exact ⟨t, by rw [hcb, ht]; rfl⟩
      · rintro ⟨t, ht⟩
        injection ht with h1 h2
        exact ⟨h1.symm, t, h2⟩

theorem strStartsWith_iff (s p : String) :
    strStartsWith s p = true ↔ ∃ t, s.data = p.data ++ t := by
  unfold strStartsWith
  exact isPrefixOf_iff_exists p.data s.data

theorem strStartsWith_append (p r : String) : strStartsWith (p ++ r) p = true := by
  rw [strStartsWith_iff]
  exact ⟨r.data, strData_append p r⟩

theorem strDropChars_append (p r : String) :
    strDropChars (p ++ r) p.data.length = r := by
  unfold strDropChars
  rw [strData_append, List.drop_left]

/-- Every string accepted by the Unix-path syntax has one of five leading
shapes. -/
theorem unixPathStart_shapes {s : String} (h : strIsUnixSocketPathStart s = true) :
    (∃ t, s.data = '\\' :: t) ∨ (∃ t, s.data = '/' :: t) ∨
    (∃ t, s.data = '.' :: '\\' :: t) ∨ (∃ t, s.data = '.' :: '/' :: t) ∨
    (∃ c t, s.data = c :: ':' :: '\\' :: t ∧ c.isAlpha = true) := by
  unfold strIsUnixSocketPathStart at h
  simp only [Bool.or_eq_true] at h
  rcases h with (((h | h) | h) | h) | h
  · rw [strStartsWith_iff] at h
    obtain ⟨t, ht⟩ := h
    exact .inl ⟨t, ht⟩
  · rw [strStartsWith_iff] at h
    obtain ⟨t, ht⟩ := h
    exact .inr (.inl ⟨t, ht⟩)
  · rw [strStartsWith_iff] at h
    obtain ⟨t, ht⟩ := h
    exact .inr (.inr (.inl ⟨t, ht⟩))
  · rw [strStartsWith_iff] at h
    obtain ⟨t, ht⟩ := h
    exact .inr (.inr (.inr (.inl ⟨t, ht⟩)))
  · cases hd : s.data with
    | nil => rw [hd] at h; cases h
    | cons c l1 =>
      cases l1 with
      | nil => rw [hd] at h; cases h
      | cons c2 l2 =>
        cases l2 with
        | nil => rw [hd] at h; cases h
        | cons c3 l3 =>
          rw [hd] at h
          simp only [Bool.and_eq_true, beq_iff_eq] at h
          obtain ⟨⟨ha, hc⟩, hb⟩ := h
          subst hc
          subst hb
          exact .inr (.inr (.inr (.inr ⟨c, l3, rfl, ha⟩)))

/-- A string with the Unix-path syntax is not `stdin` and does not start
with any of the three inherit prefixes. -/
theorem unixPathStart_no_collision {s : String} (h : strIsUnixSocketPathStart s = true) :
    s ≠ "stdin" ∧ strStartsWith s "fd:" = false ∧
    strStartsWith s "socket:" = false ∧ strStartsWith s "systemd:" = false := by
  have hshapes := unixPathStart_shapes h
  refine ⟨?_, ?_, ?_, ?_⟩
  · intro he
    rw [string_eq_iff_data] at he
    rcases hshapes with ⟨t, ht⟩ | ⟨t, ht⟩ | ⟨t, ht⟩ | ⟨t, ht⟩ | ⟨c, t, ht, ha⟩ <;>
      rw [ht] at he <;> simp at he
  · rw [Bool.eq_false_iff]
    intro hf
    rw [strStartsWith_iff] at hf
    obtain ⟨t2, ht2⟩ := hf
    rcases hshapes with ⟨t, ht⟩ | ⟨t, ht⟩ | ⟨t, ht⟩ | ⟨t, ht⟩ | ⟨c, t, ht, ha⟩ <;>
      rw [ht] at ht2 <;> simp at ht2
  · rw [Bool.eq_false_iff]
    intro hf
    rw [strStartsWith_iff] at hf
    obtain ⟨t2, ht2⟩ := hf
    rcases hshapes with ⟨t, ht⟩ | ⟨t, ht⟩ | ⟨t, ht⟩ | ⟨t, ht⟩ | ⟨c, t, ht, ha⟩ <;>
      rw [ht] at ht2 <;> simp at ht2
  · rw [Bool.eq_false_iff]
    intro hf
    rw [strStartsWith_iff] at hf
    obtain ⟨t2, ht2⟩ := hf
    rcases hshapes with ⟨t, ht⟩ | ⟨t, ht⟩ | ⟨t, ht⟩ | ⟨t, ht⟩ | ⟨c, t, ht, ha⟩ <;>
      rw [ht] at ht2 <;> simp at ht2

end SocketConfig

namespace SocketConfig

theorem isPrefixOf_append_left (q : List Char) :
    ∀ (l r : List Char), q.length ≤ l.length →
      q.isPrefixOf (l ++ r) = q.isPrefixOf l := by
  induction q with
  | nil =>
    intro l r _
    simp [List.isPrefixOf]
  | cons c cs ih =>
    intro l r hle
    cases l with
    | nil => simp at hle
    | cons b bs =>
      simp only [List.cons_append, List.isPrefixOf, List.append_eq]
      rw [ih bs r (by simpa using hle)]

/-- Whether a string starts with a pattern no longer than its first part is
decided by that first part alone. -/
theorem strStartsWith_append_left (p r q : String)
    (hle : q.data.length ≤ p.data.length) :
    strStartsWith (p ++ r) q = strStartsWith p q := by
  unfold strStartsWith
  rw [strData_append]
  exact isPrefixOf_append_left q.data p.data r.data hle

theorem ne_of_startsWith_mismatch {s : String} (p : String)
    (h : strStartsWith s p = true) (lit : String)
    (hd : strStartsWith lit p = false) : s ≠ lit := by
  intro he
  rw [he] at h
  rw [h] at hd
  cases hd

/-- Reduction of `FromStr` when one of the inherit prefixes matched. -/
theorem fromStr_prefix_case (ipParse : String → Option IpAddr)
    (sockParse : String → Option (IpAddr × Nat)) (s : String)
    (isSystemd : Bool) (plen : Nat) (hne : s ≠ "stdin")
    (hfound : (if strStartsWith s "fd:" then some (false, 3)
               else if strStartsWith s "socket:" then some (false, 7)
               else if strStartsWith s "systemd:" then some (true, 8)
               else (none : Option (Bool × Nat))) = some (isSystemd, plen)) :
    SocketAddr.fromStr ipParse sockParse s =
      (match parseI32 (strDropChars s plen) with
       | none => .error .invalidSocketNum
       | some n => .ok (if isSystemd then .systemdNumeric n else .inherit n)) := by
  unfold SocketAddr.fromStr
  rw [if_neg hne, hfound]

/-- Reduction of `FromStr` when no inherit syntax matched: the Unix-path
test and then the IP parses decide. -/
theorem fromStr_no_inherit_branch (ipParse : String → Option IpAddr)
    (sockParse : String → Option (IpAddr × Nat)) (s : String)
    (hne : s ≠ "stdin") (h1 : strStartsWith s "fd:" = false)
    (h2 : strStartsWith s "socket:" = false)
    (h3 : strStartsWith s "systemd:" = false) :
    SocketAddr.fromStr ipParse sockParse s =
      (if strIsUnixSocketPathStart s then .ok (.unix s)
       else
         match ipParse s with
         | some a => .ok (.ip a none)
         | none =>
           match sockParse s with
           | some ap => .ok (.ip ap.1 (some ap.2))
           | none => .error .unrecognized) := by
  unfold SocketAddr.fromStr
  rw [if_neg hne, if_neg (by simp [h1]), if_neg (by simp [h2]), if_neg (by simp [h3])]

end SocketConfig

namespace SocketConfig

/-- Claim C7 counterexample: on POSIX the descriptor after `fd:` is parsed
as the signed `RawFd` type, so `fd:-1` — whose remainder is not a valid
unsigned integer — parses successfully to `Inherit(-1)` instead of failing
with `InvalidSocketNum`. -/
theorem fromStr_accepts_negative_fd :
    SocketAddr.fromStr toyIpParse toySockParse "fd:-1" = .ok (.inherit (-1)) := by
  decide

/-- Claim C7 (amended): the first-match-wins dispatch of `FromStr` — the
exact literal `stdin` gives `InheritStdin`; a `fd:` or `socket:` prefix
(case-sensitive, synonymous) gives `Inherit` with the remainder parsed as
the platform's signed 32-bit descriptor type, `InvalidSocketNum` when the
remainder is not a valid such integer; `systemd:` gives `SystemdNumeric`
likewise; the local-path syntaxes give `Unix`; otherwise the
address-only IP parse is tried, then the address-with-port parse, and on
both failing the result is the `Unrecognized` error. -/
theorem fromStr_dispatch (ipParse : String → Option IpAddr)
    (sockParse : String → Option (IpAddr × Nat)) (s : String) :
    (s = "stdin" → SocketAddr.fromStr ipParse sockParse s = .ok .inheritStdin) ∧
    (∀ r, s = "fd:" ++ r →
      SocketAddr.fromStr ipParse sockParse s =
        (match parseI32 r with
         | some n => .ok (.inherit n)
         | none => .error .invalidSocketNum)) ∧
    (∀ r, s = "socket:" ++ r →
      SocketAddr.fromStr ipParse sockParse s =
        (match parseI32 r with
         | some n => .ok (.inherit n)
         | none => .error .invalidSocketNum)) ∧
    (∀ r, s = "systemd:" ++ r →
      SocketAddr.fromStr ipParse sockParse s =
        (match parseI32 r with
         | some n => .ok (.systemdNumeric n)
         | none => .error .invalidSocketNum)) ∧
    (strIsUnixSocketPathStart s = true →
      SocketAddr.fromStr ipParse sockParse s = .ok (.unix s)) ∧
    (s ≠ "stdin" → strStartsWith s "fd:" = false →
      strStartsWith s "socket:" = false → strStartsWith s "systemd:" = false →
      strIsUnixSocketPathStart s = false →
      SocketAddr.fromStr ipParse sockParse s =
        (match ipParse s with
         | some a => .ok (.ip a none)
         | none =>
           match sockParse s with
           | some ap => .ok (.ip ap.1 (some ap.2))
           | none => .error .unrecognized)) := by
  refine ⟨?_, ?_, ?_, ?_, ?_, ?_⟩
  · intro h
    subst h
    unfold SocketAddr.fromStr
    rw [if_pos rfl]
  · intro r h
    subst h
    have hsw := strStartsWith_append "fd:" r
    have hne := ne_of_startsWith_mismatch "fd:" hsw "stdin" (by decide)
    have hdrop : strDropChars ("fd:" ++ r) 3 = r := strDropChars_append "fd:" r
    rw [fromStr_prefix_case ipParse sockParse _ false 3 hne (by rw [if_pos hsw]), hdrop]
    cases parseI32 r <;> rfl
  · intro r h
    subst h
    have hsw := strStartsWith_append "socket:" r
    have hne := ne_of_startsWith_mismatch "socket:" hsw "stdin" (by decide)
    have hfd : strStartsWith ("socket:" ++ r) "fd:" = false :=
      (strStartsWith_append_left "socket:" r "fd:" (by decide)).trans (by decide)
    have hdrop : strDropChars ("socket:" ++ r) 7 = r := strDropChars_append "socket:" r
    rw [fromStr_prefix_case ipParse sockParse _ false 7 hne
      (by rw [if_neg (by simp [hfd]), if_pos hsw]), hdrop]
    cases parseI32 r <;> rfl
  · intro r h
    subst h
    have hsw := strStartsWith_append "systemd:" r
    have hne := ne_of_startsWith_mismatch "systemd:" hsw "stdin" (by decide)
    have hfd : strStartsWith ("systemd:" ++ r) "fd:" = false :=
      (strStartsWith_append_left "systemd:" r "fd:" (by decide)).trans (by decide)
    have hsock : strStartsWith ("systemd:" ++ r) "socket:" = false :=
      (strStartsWith_append_left "systemd:" r "socket:" (by decide)).trans (by decide)
    have hdrop : strDropChars ("systemd:" ++ r) 8 = r := strDropChars_append "systemd:" r
    rw [fromStr_prefix_case ipParse sockParse _ true 8 hne
      (by rw [if_neg (by simp [hfd]), if_neg (by simp [hsock]), if_pos hsw]), hdrop]
    cases parseI32 r <;> rfl
  · intro h
    obtain ⟨hne, h1, h2, h3⟩ := unixPathStart_no_collision h
    rw [fromStr_no_inherit_branch ipParse sockParse s hne h1 h2 h3, if_pos h]
  · intro hne h1 h2 h3 h4
    rw [fromStr_no_inherit_branch ipParse sockParse s hne h1 h2 h3, if_neg (by simp [h4])]

/-- Concrete instance of `fromStr_dispatch`: the literal `stdin` parses to
`InheritStdin`. -/
theorem fromStr_dispatch_witness :
    SocketAddr.fromStr toyIpParse toySockParse "stdin" = .ok .inheritStdin :=
  (fromStr_dispatch toyIpParse toySockParse "stdin").1 rfl

end SocketConfig

namespace SocketConfig

theorem empty_append_str (s : String) : ("" : String) ++ s = s := by
  cases s
  rfl

theorem strStartsWith_false_of_ne_head {s q : String} {cs cq : Char}
    {ts tq : List Char} (hs : s.data = cs :: ts) (hq : q.data = cq :: tq)
    (hne : cs ≠ cq) : strStartsWith s q = false := by
  rw [Bool.eq_false_iff]
  intro hx
  rw [strStartsWith_iff, hs, hq] at hx
  obtain ⟨t, ht⟩ := hx
  injection ht with ha hb
  exact hne ha

/-- Claim C3 counterexample: formatting the IPv6 address `fd::1` (first
group `0xfd`, no port) produces the string `fd::1`, exactly as the
standard library's `Display` prints it; re-parsing that string takes the
`fd:` dispatch branch and fails with `InvalidSocketNum` instead of
returning the address (the `fd:` branch returns before the IP parsers are
consulted, so the placeholder parsers are never reached).  The claimed
round trip, whose only stated exception is the bare relative Unix path, is
therefore false at this input. -/
theorem roundtrip_fails_on_ipv6_fd_collision :
    SocketAddr.display ipAddrDisplayStd sockAddrDisplayStd
        (.ip (.v6 253 0 0 0 0 0 0 1) none) = "fd::1" ∧
    SocketAddr.fromStr toyIpParse toySockParse "fd::1" =
      .error .invalidSocketNum := by
  constructor
  · decide
  · decide

/-- Claim C3 (amended): parsing the string produced by formatting a
constructible `SocketAddr` yields the value back, provided (a) a Unix path
without a recognized syntax round-trips to the `./`-prefixed path instead
(the claim's stated exception), and (b) for the `Ip` variants, the
standard-library IP rendering inverts through the standard-library IP
parse and does not collide with the reserved syntaxes — the collision
excluded in (b) is real and is exhibited by
`roundtrip_fails_on_ipv6_fd_collision`.  Raw descriptors are `i32` values,
which bounds the `Inherit`/`SystemdNumeric` payloads. -/
theorem display_fromStr_roundtrip (ipDisp : IpAddr → String)
    (sockDisp : IpAddr → Nat → String) (ipParse : String → Option IpAddr)
    (sockParse : String → Option (IpAddr × Nat)) (e : SocketAddr)
    (hip : ∀ a, e = .ip a none →
      ipParse (ipDisp a) = some a ∧ NoSyntaxCollision (ipDisp a))
    (hipp : ∀ a p, e = .ip a (some p) →
      ipParse (sockDisp a p) = none ∧ sockParse (sockDisp a p) = some (a, p) ∧
      NoSyntaxCollision (sockDisp a p))
    (hrange : ∀ n, e = .inherit n ∨ e = .systemdNumeric n →
      -2147483648 ≤ n ∧ n ≤ 2147483647) :
    SocketAddr.fromStr ipParse sockParse
      (SocketAddr.display ipDisp sockDisp e) = .ok e.normalized := by
  cases e with
  | ip a port =>
    cases port with
    | none =>
      obtain ⟨hp, hne, h1, h2, h3, h4⟩ := hip a rfl
      show SocketAddr.fromStr ipParse sockParse (ipDisp a) = .ok (.ip a none)
      rw [fromStr_no_inherit_branch ipParse sockParse _ hne h1 h2 h3, if_neg (by simp [h4]), hp]
    | some p =>
      obtain ⟨hp1, hp2, hne, h1, h2, h3, h4⟩ := hipp a p rfl
      show SocketAddr.fromStr ipParse sockParse (sockDisp a p) = .ok (.ip a (some p))
      rw [fromStr_no_inherit_branch ipParse sockParse _ hne h1 h2 h3, if_neg (by simp [h4]),
        hp1, hp2]
  | unix path =>
    by_cases hpx : strIsUnixSocketPathStart path = true
    · have hdisp : SocketAddr.display ipDisp sockDisp (.unix path) = path := by
        simp only [SocketAddr.display, if_pos hpx]
        exact empty_append_str path
      obtain ⟨hne, h1, h2, h3⟩ := unixPathStart_no_collision hpx
      rw [hdisp, fromStr_no_inherit_branch ipParse sockParse _ hne h1 h2 h3, if_pos hpx]
      simp [SocketAddr.normalized, hpx, empty_append_str]
    · have hpx' : strIsUnixSocketPathStart path = false := by
        rw [Bool.eq_false_iff]
        exact hpx
      have hdisp : SocketAddr.display ipDisp sockDisp (.unix path) = "./" ++ path := by
        simp only [SocketAddr.display, hpx', Bool.false_eq_true, if_false]
      have hdata : ("./" ++ path).data = '.' :: '/' :: path.data := by
        rw [strData_append]
        rfl
      have hsw : strStartsWith ("./" ++ path) "./" = true := strStartsWith_append "./" path
      have hne := ne_of_startsWith_mismatch "./" hsw "stdin" (by decide)
      have h1 : strStartsWith ("./" ++ path) "fd:" = false :=
        strStartsWith_false_of_ne_head hdata rfl (by decide)
      have h2 : strStartsWith ("./" ++ path) "socket:" = false :=
        strStartsWith_false_of_ne_head hdata rfl (by decide)
      have h3 : strStartsWith ("./" ++ path) "systemd:" = false :=
        strStartsWith_false_of_ne_head hdata rfl (by decide)
      have hup : strIsUnixSocketPathStart ("./" ++ path) = true := by
        unfold strIsUnixSocketPathStart
        simp [hsw]
      rw [hdisp, fromStr_no_inherit_branch ipParse sockParse _ hne h1 h2 h3, if_pos hup]
      simp [SocketAddr.normalized, hpx']
  | inherit n =>
    obtain ⟨hlo, hhi⟩ := hrange n (.inl rfl)
    have hsw := strStartsWith_append "fd:" (intToDec n)
    have hne := ne_of_startsWith_mismatch "fd:" hsw "stdin" (by decide)
    have hdrop : strDropChars ("fd:" ++ intToDec n) 3 = intToDec n :=
      strDropChars_append "fd:" (intToDec n)
    show SocketAddr.fromStr ipParse sockParse ("fd:" ++ intToDec n) = .ok (.inherit n)
    rw [fromStr_prefix_case ipParse sockParse _ false 3 hne (by rw [if_pos hsw]),
      hdrop, parseI32_intToDec n hlo hhi]
    rfl
  | inheritStdin =>
    show SocketAddr.fromStr ipParse sockParse "stdin" = .ok .inheritStdin
    unfold SocketAddr.fromStr
    rw [if_pos rfl]
  | systemdNumeric n =>
    obtain ⟨hlo, hhi⟩ := hrange n (.inr rfl)
    have hsw := strStartsWith_append "systemd:" (intToDec n)
    have hne := ne_of_startsWith_mismatch "systemd:" hsw "stdin" (by decide)
    have hfd : strStartsWith ("systemd:" ++ intToDec n) "fd:" = false :=
      (strStartsWith_append_left "systemd:" (intToDec n) "fd:" (by decide)).trans
        (by decide)
    have hsock : strStartsWith ("systemd:" ++ intToDec n) "socket:" = false :=
      (strStartsWith_append_left "systemd:" (intToDec n) "socket:" (by decide)).trans
        (by decide)
    have hdrop : strDropChars ("systemd:" ++ intToDec n) 8 = intToDec n :=
      strDropChars_append "systemd:" (intToDec n)
    show SocketAddr.fromStr ipParse sockParse ("systemd:" ++ intToDec n) =
      .ok (.systemdNumeric n)
    rw [fromStr_prefix_case ipParse sockParse _ true 8 hne
      (by rw [if_neg (by simp [hfd]), if_neg (by simp [hsock]), if_pos hsw]),
      hdrop, parseI32_intToDec n hlo hhi]
    rfl

/-- Concrete instance of `display_fromStr_roundtrip`: `Inherit(5)` formats
as `fd:5` and parses back to itself. -/
theorem display_fromStr_roundtrip_witness :
    SocketAddr.fromStr toyIpParse toySockParse
      (SocketAddr.display toyIpDisp toySockDisp (.inherit 5)) = .ok (.inherit 5) :=
  display_fromStr_roundtrip toyIpDisp toySockDisp toyIpParse toySockParse (.inherit 5)
    (fun a h => by cases h) (fun a p h => by cases h)
    (fun n h => by
      rcases h with h | h
      · cases h
        exact ⟨by decide, by decide⟩
      · cases h)

end SocketConfig
